import Mathlib

/-!
# Submission integrity and anomaly scoring engine (`script.js`)

A shallow embedding of `AnomalyDetector`, `RateLimiter`, `CryptoVerifier` and
`generateDeviceFingerprint` of `script.js`.

Conventions of the embedding:

* A JavaScript `Date` is represented by its time value, an integral number of
  milliseconds since the epoch, or `none` for an Invalid Date (whose time value
  is `NaN`).  Every comparison with `NaN` is false and every arithmetic
  operation on `NaN` gives `NaN`.
* `new Date()` and `Date.now()` read the host clock; the instant they return is
  the explicit argument `now`.  The velocity filter reads the clock once for
  each element; the embedding takes one instant for the whole call.  The clock
  keeps `now` far inside the range of valid time values, so subtracting an hour
  or a day from it is again a valid time value.
* Division of a millisecond difference by `1000` and by `60` is exact rational
  arithmetic.  The source computes in IEEE doubles; the two agree whenever the
  number compared with is whole (the 15 minutes of the cooldown, the default
  threshold 65, a time limit of whole minutes).  For a fractional time limit
  the double comparison can differ from the exact one at the boundary, and no
  statement below is about such a limit.
* The global `QUESTS` is not defined in `script.js`; it is an argument.
* A JavaScript string is a list of Unicode characters.  `JSON.stringify`,
  `TextEncoder`, `btoa`, `padStart`, `substring` and the SHA-256 digest of
  `crypto.subtle` are host functions; they are embedded as their standards
  define them.  `btoa` fails on a character above U+00FF; a failing call is an
  `Except.error`.
* `createSubmissionHash` is `async`; the embedding is the value its promise
  resolves to.
-/

namespace Carboncred

/-! ## Data model -/

/-- A stored timestamp: the text kept in the record, and the time value that
`new Date(text)` has (`none` when the text does not parse). -/
structure Timestamp where
  text : String
  value : Option Int
  deriving DecidableEq, Repr

/-- One entry of `userData.submissions`. -/
structure Submission where
  questId : Nat
  timestamp : Timestamp
  deviceId : String
  description : String
  commitmentHash : String
  deriving DecidableEq, Repr

/-- One entry of the global `QUESTS`; `timeLimit` is in minutes.  The lookup
compares `id` with a submission's `questId` by `==`, which identifies a number
and its decimal text; an id is represented by the number. -/
structure Quest where
  id : Nat
  timeLimit : ℚ
  deriving DecidableEq, Repr

/-- The part of the global `userData` that the engine reads.
`lastSubmissionTime` is `none` when the field is falsy (absent, `null`, or the
empty string). -/
structure UserData where
  submissions : List Submission
  lastSubmissionTime : Option Timestamp
  verificationRate : ℚ
  deriving DecidableEq, Repr

/-- The `message` of an anomaly.  Each constructor stands for one template
literal of `detectAnomalies` and carries the numbers interpolated into it:
`velocity n` is the text "n submissions in last hour (max: 5)",
`timing d m` is "Quest completed d min after previous (minimum: m min)", and
`perfect` is "100% verification rate with 20+ submissions (unlikely)". -/
inductive AnomalyMessage where
  | velocity (count : Nat)
  | timing (timeDiff minimum : ℚ)
  | perfect
  deriving DecidableEq, Repr

/-- One finding pushed by `detectAnomalies`. -/
structure Anomaly where
  type : String
  severity : String
  message : AnomalyMessage
  score : Int
  deriving DecidableEq, Repr

/-- The object returned by `getAnomalyStatus`. -/
structure AnomalyStatus where
  level : String
  color : String
  message : String
  deriving DecidableEq, Repr

/-- The values that `generateDeviceFingerprint` reads from `navigator`, `Intl`
and `screen`.  `hardwareConcurrency` is `none` when the browser does not define
it. -/
structure Environment where
  userAgent : String
  language : String
  timeZone : String
  platform : String
  hardwareConcurrency : Option Nat
  screenWidth : Nat
  screenHeight : Nat
  deriving DecidableEq, Repr

/-- A byte of an `ArrayBuffer` or a `Uint8Array`. -/
abbrev Byte := Fin 256

/-- The object returned by `checkRateLimits`. -/
structure RateLimitResult where
  allowed : Bool
  violations : List String
  deriving DecidableEq, Repr

/-! ## JavaScript operators used by the engine -/

/-- The comparison `a > b` of two dates (false when either is invalid). -/
def dateGt (a b : Option Int) : Bool :=
  match a, b with
  | some x, some y => decide (x > y)
  | _, _ => false

/-- The number `(a - b) / 1000 / 60` for two dates `a` and `b`: the minutes from
`b` to `a`, `none` (NaN) when either date is invalid. -/
def minutesBetween (a b : Option Int) : Option ℚ :=
  match a, b with
  | some x, some y => some (((x - y : Int) : ℚ) / 1000 / 60)
  | _, _ => none

/-- The comparison `x < y` of a number that may be NaN with a number. -/
def numLt (x : Option ℚ) (y : ℚ) : Bool :=
  match x with
  | some v => decide (v < y)
  | none => false

/-- The expression `x || d` for an optional number `x`: `d` when `x` is
`undefined` or `0`, else `x`. -/
def orElse (x : Option ℚ) (d : ℚ) : ℚ :=
  match x with
  | some v => if v = 0 then d else v
  | none => d

/-! ## AnomalyDetector -/

namespace AnomalyDetector

/-- The submissions of the trailing hour: the filter of the velocity check. -/
def recentSubmissions (now : Int) (userData : UserData) : List Submission :=
  userData.submissions.filter
    (fun s => dateGt s.timestamp.value (some (now - 60 * 60 * 1000)))

/-- The body of the callback of the time pattern check, for the element
`submission` at index `idx`: the findings it pushes.  The comparison of
`timeDiff` with `questDuration + 5` is exact here and made in doubles in the
source; the two agree when `questDuration` is a whole number of minutes. -/
def timePatternCheck (QUESTS : List Quest) (submissions : List Submission)
    (submission : Submission) (idx : Nat) : List Anomaly :=
  if idx > 0 then
    match submissions[idx - 1]? with
    | some prevSubmission =>
      let timeDiff := minutesBetween submission.timestamp.value prevSubmission.timestamp.value
      let questDuration :=
        orElse ((QUESTS.find? (fun q => q.id == submission.questId)).map (fun q => q.timeLimit)) 60
      if numLt timeDiff (questDuration + 5) then
        [{ type := "IMPOSSIBLE_TIMING", severity := "HIGH",
           message := AnomalyMessage.timing (timeDiff.getD 0) (questDuration + 5),
           score := 35 }]
      else []
    | none => []
  else []

/-- The function `AnomalyDetector.detectAnomalies(userData)`. -/
def detectAnomalies (QUESTS : List Quest) (now : Int) (userData : UserData) : List Anomaly :=
  let anomalies : List Anomaly := []
  -- 1. Velocity Check
  let recent := recentSubmissions now userData
  let anomalies :=
    if recent.length > 5 then
      anomalies ++ [{ type := "VELOCITY_SPIKE", severity := "HIGH",
                      message := AnomalyMessage.velocity recent.length,
                      score := min 40 ((recent.length : Int) * 8) }]
    else anomalies
  -- 2. Time Pattern Check
  let anomalies :=
    userData.submissions.enum.foldl
      (fun acc p => acc ++ timePatternCheck QUESTS userData.submissions p.2 p.1) anomalies
  -- 3. Perfect Success Rate
  let anomalies :=
    if userData.submissions.length > 20 ∧ userData.verificationRate = 1 then
      anomalies ++ [{ type := "PERFECT_RECORD", severity := "LOW",
                      message := AnomalyMessage.perfect, score := 10 }]
    else anomalies
  anomalies

/-- The function `AnomalyDetector.calculateAnomalyScore(anomalies)`. -/
def calculateAnomalyScore (anomalies : List Anomaly) : Int :=
  min 100 (anomalies.foldl (fun sum a => sum + a.score) 0)

/-- The function `AnomalyDetector.getAnomalyStatus(score)`. -/
def getAnomalyStatus (score : Int) : AnomalyStatus :=
  if score < 20 then
    { level := "SAFE", color := "green", message := "✓ Normal Behavior" }
  else if score < 50 then
    { level := "CAUTION", color := "yellow", message := "⚠ Monitor Activity" }
  else
    { level := "HIGH_RISK", color := "red", message := "🚨 Review Required" }

end AnomalyDetector

/-! ## RateLimiter -/

namespace RateLimiter

/-- The first violation text of `checkRateLimits`. -/
def hourLimitMessage : String := "You\x27ve reached the 5 submissions/hour limit."

/-- The second violation text of `checkRateLimits`. -/
def dayLimitMessage : String := "You\x27ve reached the 15 submissions/day limit."

/-- The third violation text of `checkRateLimits`, for the whole number `n` that
`Math.ceil` returned. -/
def cooldownMessage (n : Int) : String := "Wait " ++ toString n ++ " more minutes."

/-- The cooldown check of `checkRateLimits`: the violations it pushes. -/
def cooldownCheck (now : Int) (userData : UserData) : List String :=
  match userData.lastSubmissionTime with
  | some last =>
    let minutesSinceLastSubmission := minutesBetween (some now) last.value
    if numLt minutesSinceLastSubmission 15 then
      [cooldownMessage (Int.ceil (15 - minutesSinceLastSubmission.getD 0))]
    else []
  | none => []

/-- The function `RateLimiter.checkRateLimits(userData)`. -/
def checkRateLimits (now : Int) (userData : UserData) : RateLimitResult :=
  let perHour := 5
  let perDay := 15
  let oneHourAgo : Option Int := some (now - 60 * 60 * 1000)
  let oneDayAgo : Option Int := some (now - 24 * 60 * 60 * 1000)
  let lastHour := (userData.submissions.filter (fun s => dateGt s.timestamp.value oneHourAgo)).length
  let lastDay := (userData.submissions.filter (fun s => dateGt s.timestamp.value oneDayAgo)).length
  let violations : List String := []
  let violations := if lastHour ≥ perHour then violations ++ [hourLimitMessage] else violations
  let violations := if lastDay ≥ perDay then violations ++ [dayLimitMessage] else violations
  let violations := violations ++ cooldownCheck now userData
  { allowed := violations.length == 0, violations := violations }

end RateLimiter

/-! ## Host functions on text and bytes -/

/-- The characters that `JSON.stringify` writes for one character of a string. -/
def jsonEscape (c : Char) : List Char :=
  if c = Char.ofNat 34 then [Char.ofNat 92, Char.ofNat 34]
  else if c = Char.ofNat 92 then [Char.ofNat 92, Char.ofNat 92]
  else if c = Char.ofNat 8 then [Char.ofNat 92, 'b']
  else if c = Char.ofNat 12 then [Char.ofNat 92, 'f']
  else if c = Char.ofNat 10 then [Char.ofNat 92, 'n']
  else if c = Char.ofNat 13 then [Char.ofNat 92, 'r']
  else if c = Char.ofNat 9 then [Char.ofNat 92, 't']
  else if c.toNat < 32 then
    [Char.ofNat 92, 'u', '0', '0', Nat.digitChar (c.toNat / 16), Nat.digitChar (c.toNat % 16)]
  else [c]

/-- The text `JSON.stringify` gives for a string: the escaped characters between
double quotes. -/
def jsonQuote (s : String) : String :=
  String.mk ([Char.ofNat 34] ++ s.data.flatMap jsonEscape ++ [Char.ofNat 34])

/-- The UTF-8 bytes of one character. -/
def utf8EncodeChar (c : Char) : List Byte :=
  let v := c.toNat
  if v ≤ 0x7f then [Fin.ofNat v]
  else if v ≤ 0x7ff then [Fin.ofNat (0xc0 + v / 64), Fin.ofNat (0x80 + v % 64)]
  else if v ≤ 0xffff then
    [Fin.ofNat (0xe0 + v / 4096), Fin.ofNat (0x80 + v / 64 % 64), Fin.ofNat (0x80 + v % 64)]
  else
    [Fin.ofNat (0xf0 + v / 262144), Fin.ofNat (0x80 + v / 4096 % 64),
     Fin.ofNat (0x80 + v / 64 % 64), Fin.ofNat (0x80 + v % 64)]

/-- The method `encode` of a `TextEncoder`: the UTF-8 bytes of a string. -/
def encode (s : String) : List Byte := s.data.flatMap utf8EncodeChar

/-- The method `padStart` of a string, for a filler of one character. -/
def padStart (s : String) (targetLength : Nat) (padChar : Char) : String :=
  String.mk (List.replicate (targetLength - s.length) padChar) ++ s

/-- The method `substring` of a string, for `start` at most `stop`. -/
def substring (s : String) (start stop : Nat) : String :=
  String.mk ((s.data.drop start).take (stop - start))

/-- The character of the base64 alphabet for a 6 bit value. -/
def base64Digit (n : Nat) : Char :=
  "ABCDEFGHIJKLMNOPQRSTUVWXYZabcdefghijklmnopqrstuvwxyz0123456789+/".data.getD n '='

/-- The base64 characters of a list of byte values. -/
def base64 : List Nat → List Char
  | a :: b :: c :: rest =>
    base64Digit (a / 4) :: base64Digit (a % 4 * 16 + b / 16) ::
      base64Digit (b % 16 * 4 + c / 64) :: base64Digit (c % 64) :: base64 rest
  | [a, b] =>
    [base64Digit (a / 4), base64Digit (a % 4 * 16 + b / 16), base64Digit (b % 16 * 4), '=']
  | [a] => [base64Digit (a / 4), base64Digit (a % 4 * 16), '=', '=']
  | [] => []

/-- The function `btoa`: the base64 text of a string whose characters are all at
most U+00FF, and an `InvalidCharacterError` for any other string. -/
def btoa (s : String) : Except String String :=
  if s.data.all (fun c => decide (c.toNat ≤ 255)) then
    Except.ok (String.mk (base64 (s.data.map (fun c => c.toNat))))
  else Except.error "InvalidCharacterError"

/-! ## SHA-256, the digest of `crypto.subtle.digest` -/

namespace SHA256

/-- The 64 round constants. -/
def K : List Nat :=
  [0x428a2f98, 0x71374491, 0xb5c0fbcf, 0xe9b5dba5, 0x3956c25b, 0x59f111f1, 0x923f82a4, 0xab1c5ed5,
   0xd807aa98, 0x12835b01, 0x243185be, 0x550c7dc3, 0x72be5d74, 0x80deb1fe, 0x9bdc06a7, 0xc19bf174,
   0xe49b69c1, 0xefbe4786, 0x0fc19dc6, 0x240ca1cc, 0x2de92c6f, 0x4a7484aa, 0x5cb0a9dc, 0x76f988da,
   0x983e5152, 0xa831c66d, 0xb00327c8, 0xbf597fc7, 0xc6e00bf3, 0xd5a79147, 0x06ca6351, 0x14292967,
   0x27b70a85, 0x2e1b2138, 0x4d2c6dfc, 0x53380d13, 0x650a7354, 0x766a0abb, 0x81c2c92e, 0x92722c85,
   0xa2bfe8a1, 0xa81a664b, 0xc24b8b70, 0xc76c51a3, 0xd192e819, 0xd6990624, 0xf40e3585, 0x106aa070,
   0x19a4c116, 0x1e376c08, 0x2748774c, 0x34b0bcb5, 0x391c0cb3, 0x4ed8aa4a, 0x5b9cca4f, 0x682e6ff3,
   0x748f82ee, 0x78a5636f, 0x84c87814, 0x8cc70208, 0x90befffa, 0xa4506ceb, 0xbef9a3f7, 0xc67178f2]

/-- The eight working words, each below 2^32. -/
structure State where
  a : Nat
  b : Nat
  c : Nat
  d : Nat
  e : Nat
  f : Nat
  g : Nat
  h : Nat
  deriving DecidableEq, Repr

/-- The initial hash value. -/
def H0 : State :=
  ⟨0x6a09e667, 0xbb67ae85, 0x3c6ef372, 0xa54ff53a, 0x510e527f, 0x9b05688c, 0x1f83d9ab, 0x5be0cd19⟩

/-- Addition of 32 bit words. -/
def add32 (x y : Nat) : Nat := (x + y) % 4294967296

/-- Rotation of a 32 bit word to the right by `n` bits. -/
def rotr (x n : Nat) : Nat := (x >>> n ||| x <<< (32 - n)) % 4294967296

/-- The function Ch of the standard. -/
def ch (x y z : Nat) : Nat := (x &&& y) ^^^ ((4294967295 - x) &&& z)

/-- The function Maj of the standard. -/
def maj (x y z : Nat) : Nat := (x &&& y) ^^^ (x &&& z) ^^^ (y &&& z)

/-- The function written with a capital sigma and index 0. -/
def bigSigma0 (x : Nat) : Nat := rotr x 2 ^^^ rotr x 13 ^^^ rotr x 22

/-- The function written with a capital sigma and index 1. -/
def bigSigma1 (x : Nat) : Nat := rotr x 6 ^^^ rotr x 11 ^^^ rotr x 25

/-- The function written with a small sigma and index 0. -/
def smallSigma0 (x : Nat) : Nat := rotr x 7 ^^^ rotr x 18 ^^^ (x >>> 3)

/-- The function written with a small sigma and index 1. -/
def smallSigma1 (x : Nat) : Nat := rotr x 17 ^^^ rotr x 19 ^^^ (x >>> 10)

/-- The padded message: the data, the byte 0x80, zero bytes up to 56 modulo 64,
and the bit length of the data as 8 bytes, most significant first. -/
def pad (data : List Byte) : List Nat :=
  data.map (fun b => b.val) ++ [0x80] ++
    List.replicate ((64 - (data.length + 9) % 64) % 64) 0 ++
    (List.range 8).map (fun i => ((data.length * 8) >>> (8 * (7 - i))) % 256)

/-- The 32 bit words of a list of bytes, most significant byte first. -/
def words (bytes : List Nat) : List Nat :=
  match bytes with
  | a :: b :: c :: d :: rest => (a * 16777216 + b * 65536 + c * 256 + d) :: words rest
  | _ => []

/-- The message schedule of a block of 16 words: 64 words. -/
def schedule (block : List Nat) : List Nat :=
  (List.range 48).foldl
    (fun w i =>
      let t := i + 16
      w ++ [add32 (add32 (smallSigma1 (w.getD (t - 2) 0)) (w.getD (t - 7) 0))
              (add32 (smallSigma0 (w.getD (t - 15) 0)) (w.getD (t - 16) 0))])
    block

/-- One round of the compression function, for a round constant and a word of
the schedule. -/
def step (s : State) (kw : Nat × Nat) : State :=
  let t1 := add32 (add32 (add32 s.h (bigSigma1 s.e)) (add32 (ch s.e s.f s.g) kw.1)) kw.2
  let t2 := add32 (bigSigma0 s.a) (maj s.a s.b s.c)
  ⟨add32 t1 t2, s.a, s.b, s.c, add32 s.d t1, s.e, s.f, s.g⟩

/-- The compression function: the 64 rounds on a block, added to the state. -/
def compress (s : State) (block : List Nat) : State :=
  let r := (K.zip (schedule block)).foldl step s
  ⟨add32 s.a r.a, add32 s.b r.b, add32 s.c r.c, add32 s.d r.d,
   add32 s.e r.e, add32 s.f r.f, add32 s.g r.g, add32 s.h r.h⟩

/-- The first `n` blocks of 16 words. -/
def blocks (ws : List Nat) (n : Nat) : List (List Nat) :=
  (List.range n).map (fun i => (ws.drop (16 * i)).take 16)

/-- The four bytes of a word, most significant first. -/
def wordBytes (w : Nat) : List Byte :=
  [Fin.ofNat (w / 16777216), Fin.ofNat (w / 65536), Fin.ofNat (w / 256), Fin.ofNat w]

/-- The SHA-256 digest of a list of bytes. -/
def digest (data : List Byte) : List Byte :=
  let ws := words (pad data)
  let s := (blocks ws (ws.length / 16)).foldl compress H0
  [s.a, s.b, s.c, s.d, s.e, s.f, s.g, s.h].flatMap wordBytes

end SHA256

/-! ## CryptoVerifier -/

namespace CryptoVerifier

/-- The text `JSON.stringify` gives for the object literal of
`createSubmissionHash`, with the keys `questId`, `timestamp`, `deviceId` and
`description` in this order; `questId` is a number and is written in decimal. -/
def stringifySubmission (submission : Submission) : String :=
  "\x7b\x22questId\x22:" ++ toString submission.questId ++
  ",\x22timestamp\x22:" ++ jsonQuote submission.timestamp.text ++
  ",\x22deviceId\x22:" ++ jsonQuote submission.deviceId ++
  ",\x22description\x22:" ++ jsonQuote submission.description ++
  "\x7d"

/-- The function `CryptoVerifier.createSubmissionHash(submission)`. -/
def createSubmissionHash (submission : Submission) : String :=
  let data := stringifySubmission submission
  let dataBuffer := encode data
  let hashBuffer := SHA256.digest dataBuffer
  let hashArray := hashBuffer
  String.join (hashArray.map (fun b => padStart (String.mk (Nat.toDigits 16 b.val)) 2 '0'))

end CryptoVerifier

/-! ## Device fingerprint -/

/-- The text `JSON.stringify` gives for the object `fingerprint` of
`generateDeviceFingerprint`, with the keys `userAgent`, `language`, `timezone`,
`platform`, `cores` and `screen` in this order. -/
def stringifyFingerprint (env : Environment) : String :=
  "\x7b\x22userAgent\x22:" ++ jsonQuote env.userAgent ++
  ",\x22language\x22:" ++ jsonQuote env.language ++
  ",\x22timezone\x22:" ++ jsonQuote env.timeZone ++
  ",\x22platform\x22:" ++ jsonQuote env.platform ++
  ",\x22cores\x22:" ++ toString (env.hardwareConcurrency.getD 0) ++
  ",\x22screen\x22:" ++
    jsonQuote (toString env.screenWidth ++ "x" ++ toString env.screenHeight) ++
  "\x7d"

/-- The function `generateDeviceFingerprint()`, on the values it reads from the
environment. -/
def generateDeviceFingerprint (env : Environment) : Except String String :=
  match btoa (stringifyFingerprint env) with
  | Except.ok hash => Except.ok (substring hash 0 16)
  | Except.error e => Except.error e

/-! ## Shared vocabulary of the statements -/

/-- A submission of quest `q` with a valid timestamp of time value `t`. -/
def submissionAt (q : Nat) (t : Int) : Submission :=
  { questId := q, timestamp := { text := "", value := some t }, deviceId := "",
    description := "", commitmentHash := "" }

/-- A submission has a valid time value strictly later than `since`. -/
def laterThan (since : Int) (s : Submission) : Bool :=
  match s.timestamp.value with
  | some t => decide (since < t)
  | none => false

/-- The number of submissions whose time value is strictly later than `since`. -/
def countAfter (since : Int) (submissions : List Submission) : Nat :=
  submissions.countP (laterThan since)

/-- The sum of the `score` fields of a list of findings. -/
def scoreSum (anomalies : List Anomaly) : Int :=
  (anomalies.map (fun a => a.score)).sum

/-- The findings of the velocity check, as a list of their own. -/
def velocityFindings (now : Int) (userData : UserData) : List Anomaly :=
  if (AnomalyDetector.recentSubmissions now userData).length > 5 then
    [{ type := "VELOCITY_SPIKE", severity := "HIGH",
       message := AnomalyMessage.velocity (AnomalyDetector.recentSubmissions now userData).length,
       score := min 40 (((AnomalyDetector.recentSubmissions now userData).length : Int) * 8) }]
  else []

/-- The findings of the time pattern check, as a list of their own: the
findings of index 0, then those of index 1, and so on. -/
def timingFindings (QUESTS : List Quest) (userData : UserData) : List Anomaly :=
  userData.submissions.enum.flatMap
    (fun p => AnomalyDetector.timePatternCheck QUESTS userData.submissions p.2 p.1)

/-- The findings of the perfect record check, as a list of their own. -/
def perfectFindings (userData : UserData) : List Anomaly :=
  if userData.submissions.length > 20 ∧ userData.verificationRate = 1 then
    [{ type := "PERFECT_RECORD", severity := "LOW",
       message := AnomalyMessage.perfect, score := 10 }]
  else []

/-- The time left of the 15 minute cooldown, in milliseconds: `some r` when
`lastSubmissionTime` is present, has a valid time value and fewer than
15 minutes (900000 ms) have passed since it, `none` otherwise. -/
def cooldownRemaining (now : Int) (userData : UserData) : Option Int :=
  match userData.lastSubmissionTime with
  | some last =>
    match last.value with
    | some t => if now - t < 900000 then some (900000 - (now - t)) else none
    | none => none
  | none => none

/-- A duration in milliseconds rounded up to whole minutes. -/
def ceilMinutes (ms : Int) : Int := (ms + 59999) / 60000

/-- A history of `n` submissions, all at the instant `t`. -/
def burst (n : Nat) (t : Int) : List Submission := List.replicate n (submissionAt 1 t)

/-- The elapsed minutes from `prev` to `cur` are defined (both timestamps are
valid) and strictly less than `m`. -/
def elapsedBelow (prev cur : Submission) (m : ℚ) : Prop :=
  ∃ a b : Int, prev.timestamp.value = some a ∧ cur.timestamp.value = some b ∧
    ((b - a : Int) : ℚ) / 60000 < m

/-- The findings of a list that have the given `type`. -/
def ofType (type : String) (anomalies : List Anomaly) : List Anomaly :=
  anomalies.filter (fun a => decide (a.type = type))

/-- A submission has a timestamp that parses (its time value is not NaN). -/
def validTimestamp (s : Submission) : Bool := s.timestamp.value.isSome

/-- The user data with the submissions of unparsable timestamp left out. -/
def withoutInvalid (userData : UserData) : UserData :=
  { userData with submissions := userData.submissions.filter validTimestamp }

/-- A submission whose timestamp text does not parse as a date. -/
def garbled : Submission :=
  { questId := 1, timestamp := { text := "yesterday-ish", value := none }, deviceId := "",
    description := "", commitmentHash := "" }

/-- The two lowercase hexadecimal digits of a byte, the high one first. -/
def hexPair (b : Byte) : List Char := [Nat.digitChar (b.val / 16), Nat.digitChar (b.val % 16)]

/-- Every character of a string is at most U+00FF. -/
def allLatin1 (s : String) : Bool := s.data.all (fun c => decide (c.toNat ≤ 255))

/-- The four strings of an environment hold only characters up to U+00FF. -/
def environmentLatin1 (env : Environment) : Bool :=
  allLatin1 env.userAgent && allLatin1 env.language && allLatin1 env.timeZone &&
    allLatin1 env.platform

/-- The first 12 characters of every serialized fingerprint: an opening brace
and the quoted key `userAgent`. -/
def keyHead : String := "\x7b\x22userAgent\x22"

/-- A desktop browser on Linux. -/
def linuxDesktop : Environment :=
  { userAgent := "Mozilla/5.0 (X11; Linux x86_64)", language := "en-US",
    timeZone := "Europe/Paris", platform := "Linux x86_64", hardwareConcurrency := some 8,
    screenWidth := 1920, screenHeight := 1080 }

/-- A phone without `hardwareConcurrency`. -/
def phone : Environment :=
  { userAgent := "Mozilla/5.0 (iPhone; CPU iPhone OS 17_0 like Mac OS X)", language := "fr-FR",
    timeZone := "Asia/Tokyo", platform := "iPhone", hardwareConcurrency := none,
    screenWidth := 390, screenHeight := 844 }

/-- A submission as the application stores it. -/
def walk : Submission :=
  { questId := 1, timestamp := { text := "2024-05-01T10:00:00.000Z", value := some 1714557600000 },
    deviceId := "eyJ1c2VyQWdlbnQi", description := "Walked to work", commitmentHash := "" }

/-- A finding with a negative score, as `calculateAnomalyScore` accepts it. -/
def negativeFinding : Anomaly :=
  { type := "MANUAL_ADJUSTMENT", severity := "LOW", message := AnomalyMessage.perfect,
    score := -5 }

open AnomalyDetector RateLimiter CryptoVerifier

/-! ## Auxiliary lemmas -/

theorem foldl_score_eq (anomalies : List Anomaly) (init : Int) :
    anomalies.foldl (fun sum a => sum + a.score) init = init + scoreSum anomalies := by
  induction anomalies generalizing init with
  | nil => simp [scoreSum]
  | cons a l ih =>
    simp only [List.foldl_cons, ih, scoreSum, List.map_cons, List.sum_cons]
    omega

theorem calculateAnomalyScore_eq_min (anomalies : List Anomaly) :
    calculateAnomalyScore anomalies = min 100 (scoreSum anomalies) := by
  simp [calculateAnomalyScore, foldl_score_eq]

theorem scoreSum_append (l₁ l₂ : List Anomaly) :
    scoreSum (l₁ ++ l₂) = scoreSum l₁ + scoreSum l₂ := by
  simp [scoreSum]

theorem scoreSum_nonneg (l : List Anomaly) (h : ∀ a ∈ l, 0 ≤ a.score) : 0 ≤ scoreSum l := by
  induction l with
  | nil => simp [scoreSum]
  | cons a l ih =>
    have ha : 0 ≤ a.score := h a (List.mem_cons_self a l)
    have hl : 0 ≤ scoreSum l := ih (fun b hb => h b (List.mem_cons_of_mem a hb))
    simp only [scoreSum, List.map_cons, List.sum_cons] at hl ⊢
    omega

theorem foldl_append_flatMap {α β : Type} (f : α → List β) (l : List α) (init : List β) :
    l.foldl (fun acc p => acc ++ f p) init = init ++ l.flatMap f := by
  induction l generalizing init with
  | nil => simp
  | cons a l ih => simp [ih]

/-- The output of `detectAnomalies` is the findings of the three checks, in the
order of the checks. -/
theorem detectAnomalies_eq (QUESTS : List Quest) (now : Int) (userData : UserData) :
    detectAnomalies QUESTS now userData =
      velocityFindings now userData ++ timingFindings QUESTS userData ++
        perfectFindings userData := by
  unfold detectAnomalies velocityFindings timingFindings perfectFindings
  simp only [foldl_append_flatMap, List.nil_append]
  split_ifs <;> simp

theorem velocityFindings_score_nonneg (now : Int) (userData : UserData) :
    ∀ a ∈ velocityFindings now userData, 0 ≤ a.score := by
  intro a ha
  unfold velocityFindings at ha
  split_ifs at ha
  · simp only [List.mem_singleton] at ha
    subst ha
    simp only [le_min_iff]
    omega
  · simp at ha

theorem timePatternCheck_cases (QUESTS : List Quest) (submissions : List Submission)
    (submission : Submission) (idx : Nat) :
    timePatternCheck QUESTS submissions submission idx = [] ∨
    ∃ d m, timePatternCheck QUESTS submissions submission idx =
      [{ type := "IMPOSSIBLE_TIMING", severity := "HIGH",
         message := AnomalyMessage.timing d m, score := 35 }] := by
  unfold timePatternCheck
  split_ifs
  · split
    · dsimp only
      split_ifs
      · exact Or.inr ⟨_, _, rfl⟩
      · exact Or.inl rfl
    · exact Or.inl rfl
  · exact Or.inl rfl

theorem timingFindings_mem (QUESTS : List Quest) (userData : UserData) :
    ∀ a ∈ timingFindings QUESTS userData,
      a.type = "IMPOSSIBLE_TIMING" ∧ a.severity = "HIGH" ∧ a.score = 35 := by
  intro a ha
  unfold timingFindings at ha
  rw [List.mem_flatMap] at ha
  obtain ⟨p, -, hp⟩ := ha
  rcases timePatternCheck_cases QUESTS userData.submissions p.2 p.1 with h | ⟨d, m, h⟩
  · rw [h] at hp; simp at hp
  · rw [h] at hp
    simp only [List.mem_singleton] at hp
    subst hp
    exact ⟨rfl, rfl, rfl⟩

theorem perfectFindings_mem (userData : UserData) :
    ∀ a ∈ perfectFindings userData,
      a.type = "PERFECT_RECORD" ∧ a.severity = "LOW" ∧ a.score = 10 := by
  intro a ha
  unfold perfectFindings at ha
  split_ifs at ha
  · simp only [List.mem_singleton] at ha
    subst ha
    exact ⟨rfl, rfl, rfl⟩
  · simp at ha

theorem detectAnomalies_score_nonneg (QUESTS : List Quest) (now : Int) (userData : UserData) :
    ∀ a ∈ detectAnomalies QUESTS now userData, 0 ≤ a.score := by
  intro a ha
  rw [detectAnomalies_eq, List.mem_append, List.mem_append] at ha
  rcases ha with (h | h) | h
  · exact velocityFindings_score_nonneg now userData a h
  · have := (timingFindings_mem QUESTS userData a h).2.2
    omega
  · have := (perfectFindings_mem userData a h).2.2
    omega

theorem dateGt_some (s : Submission) (since : Int) :
    dateGt s.timestamp.value (some since) = laterThan since s := by
  unfold dateGt laterThan
  cases s.timestamp.value <;> simp

theorem filter_dateGt_length (submissions : List Submission) (since : Int) :
    (submissions.filter (fun s => dateGt s.timestamp.value (some since))).length =
      countAfter since submissions := by
  simp only [dateGt_some, countAfter, List.countP_eq_length_filter]

theorem ceil_remaining (e : Int) :
    900000 - e ≤ Int.ceil ((15 : ℚ) - ((e : Int) : ℚ) / 1000 / 60) * 60000 ∧
    (Int.ceil ((15 : ℚ) - ((e : Int) : ℚ) / 1000 / 60) - 1) * 60000 < 900000 - e := by
  have h1 : (15 : ℚ) - (e : ℚ) / 1000 / 60 ≤ (Int.ceil ((15 : ℚ) - (e : ℚ) / 1000 / 60) : ℚ) :=
    Int.le_ceil _
  have h2 : (Int.ceil ((15 : ℚ) - (e : ℚ) / 1000 / 60) : ℚ) < (15 : ℚ) - (e : ℚ) / 1000 / 60 + 1 :=
    Int.ceil_lt_add_one _
  generalize Int.ceil ((15 : ℚ) - (e : ℚ) / 1000 / 60) = N at h1 h2 ⊢
  constructor
  · have : ((900000 - e : Int) : ℚ) ≤ ((N * 60000 : Int) : ℚ) := by
      push_cast; linarith
    exact_mod_cast this
  · have : (((N - 1) * 60000 : Int) : ℚ) < ((900000 - e : Int) : ℚ) := by
      push_cast; linarith
    exact_mod_cast this

theorem ceil_eq_ceilMinutes (e : Int) :
    Int.ceil ((15 : ℚ) - ((e : Int) : ℚ) / 1000 / 60) = ceilMinutes (900000 - e) := by
  have h := ceil_remaining e
  unfold ceilMinutes
  omega

theorem minutes_lt_iff (e : Int) (m : ℚ) :
    ((e : Int) : ℚ) / 1000 / 60 < m ↔ (e : ℚ) / 60000 < m := by
  have : (e : ℚ) / 1000 / 60 = (e : ℚ) / 60000 := by ring
  rw [this]

/-- The cooldown check pushes one message, for the remaining time rounded up to
whole minutes, when the cooldown is running, and nothing otherwise. -/
theorem cooldownCheck_eq (now : Int) (userData : UserData) :
    cooldownCheck now userData =
      match cooldownRemaining now userData with
      | some r => [cooldownMessage (ceilMinutes r)]
      | none => [] := by
  unfold cooldownCheck cooldownRemaining
  cases userData.lastSubmissionTime with
  | none => rfl
  | some last =>
    dsimp only
    cases last.value with
    | none => simp [minutesBetween, numLt]
    | some t =>
      have hlt : ((now - t : Int) : ℚ) / 1000 / 60 < 15 ↔ now - t < 900000 := by
        rw [minutes_lt_iff, div_lt_iff₀ (by norm_num)]
        constructor
        · intro h
          have : ((now - t : Int) : ℚ) < ((900000 : Int) : ℚ) := by push_cast at h ⊢; linarith
          exact_mod_cast this
        · intro h
          have : ((now - t : Int) : ℚ) < ((900000 : Int) : ℚ) := by exact_mod_cast h
          push_cast at this ⊢; linarith
      by_cases h : now - t < 900000
      · simp only [minutesBetween, numLt, hlt, h, decide_True, if_true, Option.getD_some,
          ceil_eq_ceilMinutes]
      · simp only [minutesBetween, numLt, hlt, h, decide_False, if_false]
        simp

/-- The violations of `checkRateLimits`: the hour limit message when at least 5
submissions are later than an hour ago, then the day limit message when at
least 15 are later than a day ago, then the message of the cooldown check. -/
theorem checkRateLimits_violations (now : Int) (userData : UserData) :
    (checkRateLimits now userData).violations =
      (if 5 ≤ countAfter (now - 3600000) userData.submissions then [hourLimitMessage] else []) ++
      (if 15 ≤ countAfter (now - 86400000) userData.submissions then [dayLimitMessage] else []) ++
      cooldownCheck now userData := by
  unfold checkRateLimits
  simp only [filter_dateGt_length, List.nil_append, ge_iff_le]
  norm_num
  split_ifs <;> simp

theorem checkRateLimits_allowed (now : Int) (userData : UserData) :
    (checkRateLimits now userData).allowed = true ↔
      (checkRateLimits now userData).violations = [] := by
  unfold checkRateLimits
  simp [List.length_eq_zero]

theorem cooldownMessage_ne_hourLimit (n : Int) : cooldownMessage n ≠ hourLimitMessage := by
  intro h
  have := congrArg (fun s => s.data.head?) h
  simp [cooldownMessage, hourLimitMessage] at this

theorem cooldownMessage_ne_dayLimit (n : Int) : cooldownMessage n ≠ dayLimitMessage := by
  intro h
  have := congrArg (fun s => s.data.head?) h
  simp [cooldownMessage, dayLimitMessage] at this

theorem hourLimit_ne_dayLimit : hourLimitMessage ≠ dayLimitMessage := by decide

theorem hourLimit_not_mem_cooldownCheck (now : Int) (userData : UserData) :
    hourLimitMessage ∉ cooldownCheck now userData := by
  rw [cooldownCheck_eq]
  cases cooldownRemaining now userData with
  | none => simp
  | some r =>
    simp only [List.mem_singleton]
    exact fun h => cooldownMessage_ne_hourLimit _ h.symm

theorem dayLimit_not_mem_cooldownCheck (now : Int) (userData : UserData) :
    dayLimitMessage ∉ cooldownCheck now userData := by
  rw [cooldownCheck_eq]
  cases cooldownRemaining now userData with
  | none => simp
  | some r =>
    simp only [List.mem_singleton]
    exact fun h => cooldownMessage_ne_dayLimit _ h.symm

theorem countAfter_burst (n : Nat) (t since : Int) (h : since < t) :
    countAfter since (burst n t) = n := by
  unfold countAfter burst
  rw [List.countP_replicate]
  simp [laterThan, submissionAt, h]

theorem cooldownRemaining_of_running (now : Int) (userData : UserData) (last : Timestamp)
    (t : Int) (hl : userData.lastSubmissionTime = some last) (ht : last.value = some t)
    (h : now - t < 900000) :
    cooldownRemaining now userData = some (900000 - (now - t)) := by
  simp [cooldownRemaining, hl, ht, h]

theorem cooldownRemaining_some (now : Int) (userData : UserData) (r : Int)
    (h : cooldownRemaining now userData = some r) :
    ∃ last t, userData.lastSubmissionTime = some last ∧ last.value = some t ∧
      now - t < 900000 ∧ r = 900000 - (now - t) := by
  unfold cooldownRemaining at h
  cases hl : userData.lastSubmissionTime with
  | none => simp [hl] at h
  | some last =>
    cases ht : last.value with
    | none => simp [hl, ht] at h
    | some t =>
      simp only [hl, ht] at h
      split_ifs at h with hlt
      exact ⟨last, t, rfl, ht, hlt, by simpa using h.symm⟩

theorem mem_violations_iff (now : Int) (userData : UserData) (msg : String) :
    msg ∈ (checkRateLimits now userData).violations ↔
      (5 ≤ countAfter (now - 3600000) userData.submissions ∧ msg = hourLimitMessage) ∨
      (15 ≤ countAfter (now - 86400000) userData.submissions ∧ msg = dayLimitMessage) ∨
      msg ∈ cooldownCheck now userData := by
  rw [checkRateLimits_violations]
  by_cases h1 : 5 ≤ countAfter (now - 3600000) userData.submissions <;>
    by_cases h2 : 15 ≤ countAfter (now - 86400000) userData.submissions <;>
    simp [h1, h2, or_assoc]

theorem recentSubmissions_length (now : Int) (userData : UserData) :
    (recentSubmissions now userData).length = countAfter (now - 3600000) userData.submissions := by
  unfold recentSubmissions
  rw [filter_dateGt_length]
  norm_num

theorem ofType_append (type : String) (l₁ l₂ : List Anomaly) :
    ofType type (l₁ ++ l₂) = ofType type l₁ ++ ofType type l₂ := by
  simp [ofType]

theorem ofType_eq_nil (type : String) (l : List Anomaly) (h : ∀ a ∈ l, a.type ≠ type) :
    ofType type l = [] := by
  unfold ofType
  rw [List.filter_eq_nil_iff]
  intro a ha
  simpa using h a ha

theorem ofType_eq_self (type : String) (l : List Anomaly) (h : ∀ a ∈ l, a.type = type) :
    ofType type l = l := by
  unfold ofType
  rw [List.filter_eq_self]
  intro a ha
  simpa using h a ha

theorem velocityFindings_mem (now : Int) (userData : UserData) :
    ∀ a ∈ velocityFindings now userData, a.type = "VELOCITY_SPIKE" := by
  intro a ha
  unfold velocityFindings at ha
  split_ifs at ha
  · simp only [List.mem_singleton] at ha
    subst ha
    rfl
  · simp at ha

/-- The IMPOSSIBLE_TIMING findings of `detectAnomalies` are the findings of the
time pattern check, index by index. -/
theorem ofType_timing_detectAnomalies (QUESTS : List Quest) (now : Int) (userData : UserData) :
    ofType "IMPOSSIBLE_TIMING" (detectAnomalies QUESTS now userData) =
      timingFindings QUESTS userData := by
  rw [detectAnomalies_eq, ofType_append, ofType_append,
    ofType_eq_nil _ (velocityFindings now userData),
    ofType_eq_self _ (timingFindings QUESTS userData),
    ofType_eq_nil _ (perfectFindings userData)]
  · simp
  · intro a ha
    rw [(perfectFindings_mem userData a ha).1]
    decide
  · intro a ha
    exact (timingFindings_mem QUESTS userData a ha).1
  · intro a ha
    rw [velocityFindings_mem now userData a ha]
    decide

/-- The VELOCITY_SPIKE findings of `detectAnomalies` are the findings of the
velocity check. -/
theorem ofType_velocity_detectAnomalies (QUESTS : List Quest) (now : Int) (userData : UserData) :
    ofType "VELOCITY_SPIKE" (detectAnomalies QUESTS now userData) =
      velocityFindings now userData := by
  rw [detectAnomalies_eq, ofType_append, ofType_append,
    ofType_eq_self _ (velocityFindings now userData),
    ofType_eq_nil _ (timingFindings QUESTS userData),
    ofType_eq_nil _ (perfectFindings userData)]
  · simp
  · intro a ha
    rw [(perfectFindings_mem userData a ha).1]
    decide
  · intro a ha
    rw [(timingFindings_mem QUESTS userData a ha).1]
    decide
  · exact velocityFindings_mem now userData

/-- The callback of the time pattern check pushes a finding for the pair
`(prev, cur)` at index `i` exactly when the elapsed minutes are below the quest
duration that the lookup gives, plus 5. -/
theorem timePatternCheck_ne_nil_iff (QUESTS : List Quest) (submissions : List Submission)
    (prev cur : Submission) (i : Nat) (hi : 0 < i) (hprev : submissions[i - 1]? = some prev) :
    timePatternCheck QUESTS submissions cur i ≠ [] ↔
      elapsedBelow prev cur
        (orElse ((QUESTS.find? (fun q => q.id == cur.questId)).map (fun q => q.timeLimit)) 60
          + 5) := by
  unfold timePatternCheck elapsedBelow
  simp only [gt_iff_lt, hi, if_true, hprev]
  cases hb : cur.timestamp.value with
  | none => simp [minutesBetween, numLt]
  | some b =>
    cases ha : prev.timestamp.value with
    | none => simp [minutesBetween, numLt]
    | some a =>
      simp only [minutesBetween, numLt, minutes_lt_iff, Option.some.injEq, exists_and_left,
        exists_eq_left']
      split_ifs with h
      · simpa using h
      · simpa using h

theorem timePatternCheck_length_le (QUESTS : List Quest) (submissions : List Submission)
    (submission : Submission) (idx : Nat) :
    (timePatternCheck QUESTS submissions submission idx).length ≤ 1 := by
  rcases timePatternCheck_cases QUESTS submissions submission idx with h | ⟨d, m, h⟩ <;>
    simp [h]

theorem timePatternCheck_mem (QUESTS : List Quest) (submissions : List Submission)
    (submission : Submission) (idx : Nat) :
    ∀ a ∈ timePatternCheck QUESTS submissions submission idx,
      a.type = "IMPOSSIBLE_TIMING" ∧ a.severity = "HIGH" ∧ a.score = 35 := by
  intro a ha
  rcases timePatternCheck_cases QUESTS submissions submission idx with h | ⟨d, m, h⟩
  · rw [h] at ha; simp at ha
  · rw [h] at ha
    simp only [List.mem_singleton] at ha
    subst ha
    exact ⟨rfl, rfl, rfl⟩

theorem velocityFindings_of_count (now : Int) (userData : UserData)
    (h : 5 < countAfter (now - 3600000) userData.submissions) :
    velocityFindings now userData =
      [{ type := "VELOCITY_SPIKE", severity := "HIGH",
         message := AnomalyMessage.velocity (countAfter (now - 3600000) userData.submissions),
         score := 40 }] := by
  unfold velocityFindings
  rw [recentSubmissions_length, if_pos h]
  have : min (40 : Int) ((countAfter (now - 3600000) userData.submissions : Int) * 8) = 40 :=
    min_eq_left (by omega)
  rw [this]

theorem velocityFindings_of_count_le (now : Int) (userData : UserData)
    (h : countAfter (now - 3600000) userData.submissions ≤ 5) :
    velocityFindings now userData = [] := by
  unfold velocityFindings
  rw [recentSubmissions_length, if_neg (by omega)]

theorem velocityFindings_length_le (now : Int) (userData : UserData) :
    (velocityFindings now userData).length ≤ 1 := by
  by_cases h : 5 < countAfter (now - 3600000) userData.submissions
  · rw [velocityFindings_of_count now userData h]; simp
  · rw [velocityFindings_of_count_le now userData (by omega)]; simp

theorem velocityFindings_score (now : Int) (userData : UserData) :
    ∀ a ∈ velocityFindings now userData,
      a.score = 40 ∧ 5 < countAfter (now - 3600000) userData.submissions := by
  intro a ha
  by_cases h : 5 < countAfter (now - 3600000) userData.submissions
  · rw [velocityFindings_of_count now userData h, List.mem_singleton] at ha
    subst ha
    exact ⟨rfl, h⟩
  · rw [velocityFindings_of_count_le now userData (by omega)] at ha
    simp at ha

theorem perfectFindings_length_le (userData : UserData) :
    (perfectFindings userData).length ≤ 1 := by
  unfold perfectFindings
  split_ifs <;> simp

/-- The PERFECT_RECORD findings of `detectAnomalies` are the findings of the
perfect record check. -/
theorem ofType_perfect_detectAnomalies (QUESTS : List Quest) (now : Int) (userData : UserData) :
    ofType "PERFECT_RECORD" (detectAnomalies QUESTS now userData) =
      perfectFindings userData := by
  rw [detectAnomalies_eq, ofType_append, ofType_append,
    ofType_eq_nil _ (velocityFindings now userData),
    ofType_eq_nil _ (timingFindings QUESTS userData),
    ofType_eq_self _ (perfectFindings userData)]
  · simp
  · intro a ha
    exact (perfectFindings_mem userData a ha).1
  · intro a ha
    rw [(timingFindings_mem QUESTS userData a ha).1]
    decide
  · intro a ha
    rw [velocityFindings_mem now userData a ha]
    decide

theorem scoreSum_const (l : List Anomaly) (c : Int) (h : ∀ a ∈ l, a.score = c) :
    scoreSum l = c * l.length := by
  induction l with
  | nil => simp [scoreSum]
  | cons a l ih =>
    have ha : a.score = c := h a (List.mem_cons_self a l)
    have hl := ih (fun b hb => h b (List.mem_cons_of_mem a hb))
    simp only [scoreSum, List.map_cons, List.sum_cons, List.length_cons] at hl ⊢
    rw [hl, ha]
    push_cast
    ring

/-- The sum of the scores of `detectAnomalies`: 40 for the velocity finding, 35
for each timing finding, 10 for the perfect record finding. -/
theorem scoreSum_detectAnomalies (QUESTS : List Quest) (now : Int) (userData : UserData) :
    scoreSum (detectAnomalies QUESTS now userData) =
      40 * ((velocityFindings now userData).length : Int) +
      35 * ((timingFindings QUESTS userData).length : Int) +
      10 * ((perfectFindings userData).length : Int) := by
  rw [detectAnomalies_eq, scoreSum_append, scoreSum_append,
    scoreSum_const (velocityFindings now userData) 40
      (fun a ha => (velocityFindings_score now userData a ha).1),
    scoreSum_const (timingFindings QUESTS userData) 35
      (fun a ha => (timingFindings_mem QUESTS userData a ha).2.2),
    scoreSum_const (perfectFindings userData) 10
      (fun a ha => (perfectFindings_mem userData a ha).2.2)]

theorem getAnomalyStatus_level_cases (score : Int) :
    ((getAnomalyStatus score).level = "SAFE" ↔ score < 20) ∧
    ((getAnomalyStatus score).level = "CAUTION" ↔ 20 ≤ score ∧ score < 50) ∧
    ((getAnomalyStatus score).level = "HIGH_RISK" ↔ 50 ≤ score) := by
  refine ⟨?_, ?_, ?_⟩ <;>
    unfold getAnomalyStatus <;> split_ifs <;> simp <;> omega

theorem timePatternCheck_zero (QUESTS : List Quest) (submissions : List Submission)
    (submission : Submission) : timePatternCheck QUESTS submissions submission 0 = [] := by
  simp [timePatternCheck]

theorem flatMap_enumFrom_length_le (QUESTS : List Quest) (submissions l : List Submission)
    (k : Nat) :
    ((l.enumFrom k).flatMap
      (fun p => timePatternCheck QUESTS submissions p.2 p.1)).length ≤ l.length := by
  induction l generalizing k with
  | nil => simp
  | cons a l ih =>
    simp only [List.enumFrom_cons, List.flatMap_cons, List.length_append, List.length_cons]
    have h1 := timePatternCheck_length_le QUESTS submissions a k
    have h2 := ih (k + 1)
    omega

theorem timingFindings_length_le (QUESTS : List Quest) (userData : UserData) :
    (timingFindings QUESTS userData).length ≤ userData.submissions.length - 1 := by
  unfold timingFindings List.enum
  generalize hs : userData.submissions = subs
  cases hl : subs with
  | nil => simp
  | cons a l =>
    have h := flatMap_enumFrom_length_le QUESTS (a :: l) l 1
    simp only [List.enumFrom_cons, List.flatMap_cons, timePatternCheck_zero, List.nil_append,
      List.length_cons, Nat.add_sub_cancel, zero_add]
    exact h

theorem laterThan_valid (since : Int) (s : Submission) (h : laterThan since s = true) :
    validTimestamp s = true := by
  unfold laterThan at h
  unfold validTimestamp
  cases hv : s.timestamp.value with
  | none => simp [hv] at h
  | some t => rfl

theorem countAfter_filter_valid (since : Int) (submissions : List Submission) :
    countAfter since (submissions.filter validTimestamp) = countAfter since submissions := by
  unfold countAfter
  rw [List.countP_filter]
  apply List.countP_congr
  intro s _
  simp only [Bool.and_eq_true]
  exact ⟨fun h => h.1, fun h => ⟨h, laterThan_valid since s h⟩⟩

theorem timePatternCheck_invalid (QUESTS : List Quest) (submissions : List Submission)
    (prev cur : Submission) (i : Nat) (hi : 0 < i) (hprev : submissions[i - 1]? = some prev)
    (h : prev.timestamp.value = none ∨ cur.timestamp.value = none) :
    timePatternCheck QUESTS submissions cur i = [] := by
  by_contra hne
  obtain ⟨a, b, ha, hb, -⟩ :=
    (timePatternCheck_ne_nil_iff QUESTS submissions prev cur i hi hprev).1 hne
  rcases h with h | h
  · rw [h] at ha; simp at ha
  · rw [h] at hb; simp at hb

theorem join_data_aux (l : List String) (acc : String) :
    (l.foldl (fun r s => r ++ s) acc).data = acc.data ++ l.flatMap (fun s => s.data) := by
  induction l generalizing acc with
  | nil => simp
  | cons a l ih => simp [ih, String.data_append]

theorem join_data (l : List String) : (String.join l).data = l.flatMap (fun s => s.data) := by
  unfold String.join
  rw [join_data_aux]
  simp

set_option maxRecDepth 100000 in
theorem padStart_hex (b : Byte) :
    (padStart (String.mk (Nat.toDigits 16 b.val)) 2 '0').data = hexPair b := by
  revert b
  decide

set_option maxRecDepth 100000 in
theorem hexPair_hex (b : Byte) : ∀ c ∈ hexPair b, c ∈ "0123456789abcdef".data := by
  revert b
  decide

theorem digest_length (data : List Byte) : (SHA256.digest data).length = 32 := by
  unfold SHA256.digest
  simp [SHA256.wordBytes]

theorem createSubmissionHash_data (s : Submission) :
    (createSubmissionHash s).data =
      (SHA256.digest (encode (stringifySubmission s))).flatMap hexPair := by
  unfold createSubmissionHash
  simp only [join_data, List.flatMap_map, padStart_hex]

theorem flatMap_hexPair_length (l : List Byte) : (l.flatMap hexPair).length = 2 * l.length := by
  induction l with
  | nil => rfl
  | cons a l ih =>
    simp only [List.flatMap_cons, List.length_append, ih, hexPair, List.length_cons,
      List.length_nil]
    omega

set_option maxRecDepth 100000 in
/-- The digest of the three bytes "abc" is the value that the standard gives
for this message. -/
theorem digest_abc :
    SHA256.digest (encode "abc") =
      [0xba, 0x78, 0x16, 0xbf, 0x8f, 0x01, 0xcf, 0xea, 0x41, 0x41, 0x40, 0xde, 0x5d, 0xae, 0x22,
       0x23, 0xb0, 0x03, 0x61, 0xa3, 0x96, 0x17, 0x7a, 0x9c, 0xb4, 0x10, 0xff, 0x61, 0xf2, 0x00,
       0x15, 0xad] := by
  decide

set_option maxRecDepth 100000 in
/-- The digest of the two block message of the standard. -/
theorem digest_two_blocks :
    SHA256.digest (encode "abcdbcdecdefdefgefghfghighijhijkijkljklmklmnlmnomnopnopq") =
      [0x24, 0x8d, 0x6a, 0x61, 0xd2, 0x06, 0x38, 0xb8, 0xe5, 0xc0, 0x26, 0x93, 0x0c, 0x3e, 0x60,
       0x39, 0xa3, 0x3c, 0xe4, 0x59, 0x64, 0xff, 0x21, 0x67, 0xf6, 0xec, 0xed, 0xd4, 0x19, 0xdb,
       0x06, 0xc1] := by
  decide

set_option maxRecDepth 100000 in
/-- The commitment hash of a stored submission, as `sha256sum` computes it for
the serialized record. -/
theorem createSubmissionHash_walk :
    stringifySubmission walk =
      "\x7b\x22questId\x22:1,\x22timestamp\x22:\x222024-05-01T10:00:00.000Z\x22," ++
      "\x22deviceId\x22:\x22eyJ1c2VyQWdlbnQi\x22,\x22description\x22:\x22Walked to work\x22\x7d" ∧
    createSubmissionHash walk =
      "b9ce4b49f8ab4edcd8510e6f05869f548bf5f1b357af417ab69299795b3da740" := by
  decide

theorem digitChar_toNat_le (m : Nat) : (Nat.digitChar m).toNat ≤ 255 := by
  by_cases h : m < 16
  · interval_cases m <;> decide
  · have e : Nat.digitChar m = '*' := by
      unfold Nat.digitChar
      rw [if_neg (by omega), if_neg (by omega), if_neg (by omega), if_neg (by omega),
        if_neg (by omega), if_neg (by omega), if_neg (by omega), if_neg (by omega),
        if_neg (by omega), if_neg (by omega), if_neg (by omega), if_neg (by omega),
        if_neg (by omega), if_neg (by omega), if_neg (by omega), if_neg (by omega)]
    rw [e]
    decide

theorem toDigitsCore_latin1 (fuel n : Nat) (ds : List Char)
    (h : ∀ c ∈ ds, c.toNat ≤ 255) : ∀ c ∈ Nat.toDigitsCore 10 fuel n ds, c.toNat ≤ 255 := by
  induction fuel generalizing n ds with
  | zero => simpa [Nat.toDigitsCore] using h
  | succ fuel ih =>
    have hcons : ∀ c ∈ Nat.digitChar (n % 10) :: ds, c.toNat ≤ 255 := by
      intro c hc
      rcases List.mem_cons.1 hc with hc | hc
      · rw [hc]; exact digitChar_toNat_le _
      · exact h c hc
    unfold Nat.toDigitsCore
    dsimp only
    split
    · exact hcons
    · exact ih _ _ hcons

theorem allLatin1_toString (n : Nat) : allLatin1 (toString n) = true := by
  unfold allLatin1
  rw [List.all_eq_true]
  intro c hc
  have : c.toNat ≤ 255 :=
    toDigitsCore_latin1 (n + 1) n [] (by simp) c hc
  simpa using this

theorem allLatin1_append (a b : String) :
    allLatin1 (a ++ b) = (allLatin1 a && allLatin1 b) := by
  simp [allLatin1, String.data_append]

theorem jsonEscape_latin1 (c : Char) :
    (jsonEscape c).all (fun c => decide (c.toNat ≤ 255)) = decide (c.toNat ≤ 255) := by
  unfold jsonEscape
  split_ifs with h1 h2 h3 h4 h5 h6 h7 h8
  · subst h1; decide
  · subst h2; decide
  · subst h3; decide
  · subst h4; decide
  · subst h5; decide
  · subst h6; decide
  · subst h7; decide
  · have hc : c.toNat ≤ 255 := by omega
    have d1 := digitChar_toNat_le (c.toNat / 16)
    have d2 := digitChar_toNat_le (c.toNat % 16)
    simp [hc, d1, d2]
  · simp

theorem all_flatMap_jsonEscape (l : List Char) :
    (l.flatMap jsonEscape).all (fun c => decide (c.toNat ≤ 255)) =
      l.all (fun c => decide (c.toNat ≤ 255)) := by
  induction l with
  | nil => rfl
  | cons a l ih =>
    simp only [List.flatMap_cons, List.all_append, List.all_cons, ih, jsonEscape_latin1]

theorem allLatin1_jsonQuote (s : String) : allLatin1 (jsonQuote s) = allLatin1 s := by
  unfold allLatin1 jsonQuote
  simp only [List.all_append, all_flatMap_jsonEscape]
  have : ([Char.ofNat 34].all fun c => decide (c.toNat ≤ 255)) = true := by decide
  simp [this]

theorem allLatin1_stringifyFingerprint (env : Environment) :
    allLatin1 (stringifyFingerprint env) = environmentLatin1 env := by
  have h1 : allLatin1 "\x7b\x22userAgent\x22:" = true := by decide
  have h2 : allLatin1 ",\x22language\x22:" = true := by decide
  have h3 : allLatin1 ",\x22timezone\x22:" = true := by decide
  have h4 : allLatin1 ",\x22platform\x22:" = true := by decide
  have h5 : allLatin1 ",\x22cores\x22:" = true := by decide
  have h6 : allLatin1 ",\x22screen\x22:" = true := by decide
  have h7 : allLatin1 "\x7d" = true := by decide
  have h8 : allLatin1 "x" = true := by decide
  unfold stringifyFingerprint environmentLatin1
  simp only [allLatin1_append, allLatin1_jsonQuote, allLatin1_toString, h1, h2, h3, h4, h5, h6,
    h7, h8, Bool.true_and, Bool.and_true]

theorem keyHead_data :
    keyHead.data =
      [Char.ofNat 123, Char.ofNat 34, 'u', 's', 'e', 'r', 'A', 'g', 'e', 'n', 't',
       Char.ofNat 34] := by
  decide

/-- Every serialized fingerprint starts with the 12 characters of `keyHead`. -/
theorem stringifyFingerprint_data (env : Environment) :
    (stringifyFingerprint env).data =
      keyHead.data ++ (stringifyFingerprint env).data.drop 12 := by
  have hlit : "\x7b\x22userAgent\x22:".data =
      [Char.ofNat 123, Char.ofNat 34, 'u', 's', 'e', 'r', 'A', 'g', 'e', 'n', 't',
       Char.ofNat 34, ':'] := by decide
  unfold stringifyFingerprint
  simp only [String.data_append, List.append_assoc, hlit, keyHead_data, List.cons_append,
    List.nil_append, List.drop_succ_cons, List.drop_zero]

/-- The first 16 base64 characters of a text that starts with `keyHead`. -/
theorem base64_keyHead (rest : List Char) :
    (base64 ((keyHead.data ++ rest).map (fun c => c.toNat))).take 16 =
      "eyJ1c2VyQWdlbnQi".data := by
  simp only [keyHead_data, List.cons_append, List.nil_append, List.map_cons, base64,
    List.take_succ_cons, List.take_zero]
  decide

/-- The result of `generateDeviceFingerprint`: one constant identifier when
`btoa` accepts the serialized record, the error of `btoa` otherwise. -/
theorem generateDeviceFingerprint_eq (env : Environment) :
    generateDeviceFingerprint env =
      if environmentLatin1 env then Except.ok "eyJ1c2VyQWdlbnQi"
      else Except.error "InvalidCharacterError" := by
  unfold generateDeviceFingerprint btoa
  have hl := allLatin1_stringifyFingerprint env
  unfold allLatin1 at hl
  rw [hl]
  by_cases h : environmentLatin1 env = true
  · simp only [h, if_true]
    rw [stringifyFingerprint_data env]
    simp only [substring, List.drop_zero, Nat.sub_zero, base64_keyHead]
  · simp only [h]
    rfl

/-- For a whole number `m` of minutes, the elapsed minutes of a pair are below
`m` exactly when the elapsed milliseconds are below `m * 60000`. -/
theorem elapsedBelow_whole (prev cur : Submission) (m : Int) :
    elapsedBelow prev cur (m : ℚ) ↔
      ∃ a b : Int, prev.timestamp.value = some a ∧ cur.timestamp.value = some b ∧
        b - a < m * 60000 := by
  have hiff : ∀ a b : Int, ((b - a : Int) : ℚ) / 60000 < (m : ℚ) ↔ b - a < m * 60000 := by
    intro a b
    rw [div_lt_iff₀ (by norm_num)]
    constructor
    · intro h
      have : ((b - a : Int) : ℚ) < ((m * 60000 : Int) : ℚ) := by push_cast at h ⊢; linarith
      exact_mod_cast this
    · intro h
      have : ((b - a : Int) : ℚ) < ((m * 60000 : Int) : ℚ) := by exact_mod_cast h
      push_cast at this ⊢; linarith
  unfold elapsedBelow
  constructor
  · rintro ⟨a, b, ha, hb, h⟩
    exact ⟨a, b, ha, hb, (hiff a b).1 h⟩
  · rintro ⟨a, b, ha, hb, h⟩
    exact ⟨a, b, ha, hb, (hiff a b).2 h⟩

/-! ## Status classification -/

/-- C1: for every integer score the level is SAFE exactly when score < 20,
CAUTION exactly when 20 <= score < 50 and HIGH_RISK exactly when score >= 50;
19 gives SAFE, 20 and 49 give CAUTION, 50 gives HIGH_RISK. -/
theorem getAnomalyStatus_level (score : Int) :
    ((getAnomalyStatus score).level = "SAFE" ↔ score < 20) ∧
    ((getAnomalyStatus score).level = "CAUTION" ↔ 20 ≤ score ∧ score < 50) ∧
    ((getAnomalyStatus score).level = "HIGH_RISK" ↔ 50 ≤ score) ∧
    (getAnomalyStatus 19).level = "SAFE" ∧
    (getAnomalyStatus 20).level = "CAUTION" ∧
    (getAnomalyStatus 49).level = "CAUTION" ∧
    (getAnomalyStatus 50).level = "HIGH_RISK" := by
  refine ⟨?_, ?_, ?_, by decide, by decide, by decide, by decide⟩ <;>
    unfold getAnomalyStatus <;> split_ifs <;> simp <;> omega

/-! ## Score aggregation -/

/-- C2 (counterexample): a single finding of score -5 has a sum below 0, and
`calculateAnomalyScore` returns -5, not 0: the result is outside [0,100]. -/
theorem calculateAnomalyScore_negative :
    scoreSum [negativeFinding] < 0 ∧
    calculateAnomalyScore [negativeFinding] = -5 ∧
    calculateAnomalyScore [negativeFinding] ≠ 0 ∧
    ¬ (0 ≤ calculateAnomalyScore [negativeFinding]) := by
  decide

/-- C2 (amended): `calculateAnomalyScore` returns the sum of the score fields
capped at 100 from above only: the sum itself whenever it is at most 100
(negative sums included), and 100 when the sum exceeds 100; when every score is
non-negative the result lies in [0,100]. -/
theorem calculateAnomalyScore_capped (anomalies : List Anomaly) :
    (scoreSum anomalies ≤ 100 → calculateAnomalyScore anomalies = scoreSum anomalies) ∧
    (100 < scoreSum anomalies → calculateAnomalyScore anomalies = 100) ∧
    ((∀ a ∈ anomalies, 0 ≤ a.score) →
      0 ≤ calculateAnomalyScore anomalies ∧ calculateAnomalyScore anomalies ≤ 100) := by
  rw [calculateAnomalyScore_eq_min]
  refine ⟨fun h => min_eq_right h, fun h => min_eq_left (le_of_lt h), fun h => ?_⟩
  have := scoreSum_nonneg anomalies h
  exact ⟨le_min (by omega) this, min_le_left _ _⟩

/-- C2 (amended), at a concrete input: three findings of scores 35, 35 and 40
have sum 110, and the aggregated score is 100. -/
theorem calculateAnomalyScore_capped_witness :
    calculateAnomalyScore
      [{ type := "IMPOSSIBLE_TIMING", severity := "HIGH",
         message := AnomalyMessage.timing 10 35, score := 35 },
       { type := "IMPOSSIBLE_TIMING", severity := "HIGH",
         message := AnomalyMessage.timing 10 35, score := 35 },
       { type := "VELOCITY_SPIKE", severity := "HIGH",
         message := AnomalyMessage.velocity 6, score := 40 }] = 100 :=
  (calculateAnomalyScore_capped _).2.1 (by decide)

/-- C3: for every quest catalog, current instant and user data (history of any
length, any verification rate), the aggregated score
`calculateAnomalyScore (detectAnomalies ..)` lies in [0,100]. -/
theorem detectAnomalies_score_bounds (QUESTS : List Quest) (now : Int) (userData : UserData) :
    0 ≤ calculateAnomalyScore (detectAnomalies QUESTS now userData) ∧
    calculateAnomalyScore (detectAnomalies QUESTS now userData) ≤ 100 := by
  rw [calculateAnomalyScore_eq_min]
  have := scoreSum_nonneg _ (detectAnomalies_score_nonneg QUESTS now userData)
  exact ⟨le_min (by omega) this, min_le_left _ _⟩

/-! ## Rate limits -/

/-- C4: the hour limit message is among the violations exactly when at least 5
submissions have a timestamp strictly later than `now` minus 60 minutes; with
exactly 5 such submissions `allowed` is false, and with 4 the message is not
emitted. -/
theorem checkRateLimits_hourLimit (now : Int) (userData : UserData) :
    (hourLimitMessage ∈ (checkRateLimits now userData).violations ↔
      5 ≤ countAfter (now - 3600000) userData.submissions) ∧
    (countAfter (now - 3600000) userData.submissions = 5 →
      (checkRateLimits now userData).allowed = false) ∧
    (countAfter (now - 3600000) userData.submissions = 4 →
      hourLimitMessage ∉ (checkRateLimits now userData).violations) := by
  have key : hourLimitMessage ∈ (checkRateLimits now userData).violations ↔
      5 ≤ countAfter (now - 3600000) userData.submissions := by
    rw [mem_violations_iff]
    constructor
    · rintro (h | h | h)
      · exact h.1
      · exact absurd h.2 hourLimit_ne_dayLimit
      · exact absurd h (hourLimit_not_mem_cooldownCheck now userData)
    · intro h
      exact Or.inl ⟨h, rfl⟩
  refine ⟨key, fun h => ?_, fun h => ?_⟩
  · have hmem : hourLimitMessage ∈ (checkRateLimits now userData).violations :=
      key.2 (by omega)
    cases hall : (checkRateLimits now userData).allowed with
    | false => rfl
    | true =>
      rw [(checkRateLimits_allowed now userData).1 hall] at hmem
      simp at hmem
  · rw [key]
    omega

/-- C4, at a concrete input: 5 submissions 10 minutes before `now` make
`allowed` false. -/
theorem checkRateLimits_hourLimit_witness :
    (checkRateLimits 1000000000
      { submissions := burst 5 999400000, lastSubmissionTime := none,
        verificationRate := 0 }).allowed = false :=
  (checkRateLimits_hourLimit 1000000000
    { submissions := burst 5 999400000, lastSubmissionTime := none,
      verificationRate := 0 }).2.1 (by decide)

/-- C5: the day limit message is among the violations exactly when at least 15
submissions have a timestamp strictly later than `now` minus 24 hours. -/
theorem checkRateLimits_dayLimit (now : Int) (userData : UserData) :
    dayLimitMessage ∈ (checkRateLimits now userData).violations ↔
      15 ≤ countAfter (now - 86400000) userData.submissions := by
  rw [mem_violations_iff]
  constructor
  · rintro (h | h | h)
    · exact absurd h.2.symm hourLimit_ne_dayLimit
    · exact h.1
    · exact absurd h (dayLimit_not_mem_cooldownCheck now userData)
  · intro h
    exact Or.inr (Or.inl ⟨h, rfl⟩)

/-- C6: a cooldown message is among the violations exactly when
`lastSubmissionTime` is present (with a valid time value `t`) and
`now - t` is strictly less than 15 minutes (900000 ms); the number `N` of the
message "Wait N more minutes." is then the remaining time `900000 - (now - t)`
rounded up to whole minutes (the least `N` with `N * 60000` at least the
remaining milliseconds), and no other cooldown message is emitted; when the
last submission is 10 minutes before `now`, the message is
"Wait 5 more minutes.". -/
theorem checkRateLimits_cooldown (now : Int) (userData : UserData) :
    ((∃ n, cooldownMessage n ∈ (checkRateLimits now userData).violations) ↔
      ∃ last t, userData.lastSubmissionTime = some last ∧ last.value = some t ∧
        now - t < 900000) ∧
    (∀ last t, userData.lastSubmissionTime = some last → last.value = some t →
      now - t < 900000 →
      ∃ N : Int, cooldownMessage N ∈ (checkRateLimits now userData).violations ∧
        900000 - (now - t) ≤ N * 60000 ∧ (N - 1) * 60000 < 900000 - (now - t) ∧
        ∀ m, cooldownMessage m ∈ (checkRateLimits now userData).violations →
          cooldownMessage m = cooldownMessage N) ∧
    (∀ last t, userData.lastSubmissionTime = some last → last.value = some t →
      now - t = 600000 →
      "Wait 5 more minutes." ∈ (checkRateLimits now userData).violations) := by
  have hmem : ∀ m, cooldownMessage m ∈ (checkRateLimits now userData).violations ↔
      cooldownMessage m ∈ cooldownCheck now userData := by
    intro m
    rw [mem_violations_iff]
    constructor
    · rintro (h | h | h)
      · exact absurd h.2 (cooldownMessage_ne_hourLimit m)
      · exact absurd h.2 (cooldownMessage_ne_dayLimit m)
      · exact h
    · intro h
      exact Or.inr (Or.inr h)
  have hrun : ∀ last t, userData.lastSubmissionTime = some last → last.value = some t →
      now - t < 900000 →
      cooldownCheck now userData = [cooldownMessage (ceilMinutes (900000 - (now - t)))] := by
    intro last t hl ht h
    rw [cooldownCheck_eq, cooldownRemaining_of_running now userData last t hl ht h]
  refine ⟨⟨?_, ?_⟩, ?_, ?_⟩
  · rintro ⟨n, hn⟩
    rw [hmem, cooldownCheck_eq] at hn
    cases hr : cooldownRemaining now userData with
    | none => simp [hr] at hn
    | some r =>
      obtain ⟨last, t, hl, ht, hlt, -⟩ := cooldownRemaining_some now userData r hr
      exact ⟨last, t, hl, ht, hlt⟩
  · rintro ⟨last, t, hl, ht, hlt⟩
    refine ⟨ceilMinutes (900000 - (now - t)), ?_⟩
    rw [hmem, hrun last t hl ht hlt]
    simp
  · intro last t hl ht hlt
    refine ⟨ceilMinutes (900000 - (now - t)), ?_, ?_, ?_, ?_⟩
    · rw [hmem, hrun last t hl ht hlt]
      simp
    · unfold ceilMinutes
      omega
    · unfold ceilMinutes
      omega
    · intro m hm
      rw [hmem, hrun last t hl ht hlt] at hm
      simpa using hm
  · intro last t hl ht he
    have h5 : ("Wait 5 more minutes." : String) = cooldownMessage 5 := by decide
    rw [h5, hmem, hrun last t hl ht (by omega), he]
    have : ceilMinutes (900000 - 600000) = 5 := by decide
    rw [this]
    simp

/-- C6, at a concrete input: the last submission was 10 minutes before `now`,
and the violation reads "Wait 5 more minutes.". -/
theorem checkRateLimits_cooldown_witness :
    "Wait 5 more minutes." ∈ (checkRateLimits 1000000000
      { submissions := [],
        lastSubmissionTime := some { text := "1970-01-12T13:36:40.000Z", value := some 999400000 },
        verificationRate := 0 }).violations :=
  (checkRateLimits_cooldown 1000000000
    { submissions := [],
      lastSubmissionTime := some { text := "1970-01-12T13:36:40.000Z", value := some 999400000 },
      verificationRate := 0 }).2.2 _ 999400000 rfl rfl (by decide)

/-- C7: `allowed` is true exactly when the violations list is empty, and the
violations list is the hour limit message (when at least 5 submissions are
later than an hour ago), then the day limit message (when at least 15 are later
than a day ago), then the cooldown message (when the cooldown is running), each
condition evaluated on its own; one call can report all three. -/
theorem checkRateLimits_result (now : Int) (userData : UserData) :
    ((checkRateLimits now userData).allowed = true ↔
      (checkRateLimits now userData).violations = []) ∧
    (checkRateLimits now userData).violations =
      (if 5 ≤ countAfter (now - 3600000) userData.submissions then [hourLimitMessage] else []) ++
      (if 15 ≤ countAfter (now - 86400000) userData.submissions then [dayLimitMessage] else []) ++
      (match cooldownRemaining now userData with
        | some r => [cooldownMessage (ceilMinutes r)]
        | none => []) ∧
    (∃ now0 userData0, (checkRateLimits now0 userData0).violations =
      [hourLimitMessage, dayLimitMessage, "Wait 5 more minutes."]) := by
  refine ⟨checkRateLimits_allowed now userData, ?_, ?_⟩
  · rw [checkRateLimits_violations, cooldownCheck_eq]
  · refine ⟨1000000000, ⟨burst 15 999400000, some ⟨"", some 999400000⟩, 0⟩, ?_⟩
    rw [checkRateLimits_violations, cooldownCheck_eq]
    have h1 : countAfter (1000000000 - 3600000) (burst 15 999400000) = 15 :=
      countAfter_burst 15 _ _ (by decide)
    have h2 : countAfter (1000000000 - 86400000) (burst 15 999400000) = 15 :=
      countAfter_burst 15 _ _ (by decide)
    have h3 : cooldownRemaining 1000000000
        ⟨burst 15 999400000, some ⟨"", some 999400000⟩, 0⟩ = some 300000 := by decide
    have h4 : cooldownMessage (ceilMinutes 300000) = "Wait 5 more minutes." := by decide
    simp only [h1, h2, h3, h4]
    decide

/-! ## Velocity check -/

/-- C8: with `count` the number of submissions whose timestamp is later than
`now` minus 60 minutes, `detectAnomalies` returns exactly one VELOCITY_SPIKE
finding, of severity HIGH and score `min 40 (count * 8)`, when `count > 5`, and
none when `count <= 5`; with exactly 6 such submissions the finding is present
with score 40. -/
theorem detectAnomalies_velocity (QUESTS : List Quest) (now : Int) (userData : UserData) :
    (5 < countAfter (now - 3600000) userData.submissions →
      ofType "VELOCITY_SPIKE" (detectAnomalies QUESTS now userData) =
        [{ type := "VELOCITY_SPIKE", severity := "HIGH",
           message := AnomalyMessage.velocity (countAfter (now - 3600000) userData.submissions),
           score := min 40 ((countAfter (now - 3600000) userData.submissions : Int) * 8) }]) ∧
    (countAfter (now - 3600000) userData.submissions ≤ 5 →
      ofType "VELOCITY_SPIKE" (detectAnomalies QUESTS now userData) = []) ∧
    (countAfter (now - 3600000) userData.submissions = 6 →
      ∃ a ∈ detectAnomalies QUESTS now userData,
        a.type = "VELOCITY_SPIKE" ∧ a.severity = "HIGH" ∧ a.score = 40) := by
  have hv : 5 < countAfter (now - 3600000) userData.submissions →
      velocityFindings now userData =
        [{ type := "VELOCITY_SPIKE", severity := "HIGH",
           message := AnomalyMessage.velocity (countAfter (now - 3600000) userData.submissions),
           score := min 40 ((countAfter (now - 3600000) userData.submissions : Int) * 8) }] := by
    intro h
    unfold velocityFindings
    rw [recentSubmissions_length, if_pos h]
  refine ⟨fun h => ?_, fun h => ?_, fun h => ?_⟩
  · rw [ofType_velocity_detectAnomalies, hv h]
  · rw [ofType_velocity_detectAnomalies]
    unfold velocityFindings
    rw [recentSubmissions_length, if_neg (by omega)]
  · refine ⟨{ type := "VELOCITY_SPIKE", severity := "HIGH",
              message := AnomalyMessage.velocity 6, score := 40 }, ?_, rfl, rfl, rfl⟩
    rw [detectAnomalies_eq, hv (by omega), h]
    simp

/-- C8, at a concrete input: 6 submissions 10 minutes before `now` give a
VELOCITY_SPIKE finding of severity HIGH and score 40. -/
theorem detectAnomalies_velocity_witness :
    ∃ a ∈ detectAnomalies [] 1000000000
        { submissions := burst 6 999400000, lastSubmissionTime := none,
          verificationRate := 0 },
      a.type = "VELOCITY_SPIKE" ∧ a.severity = "HIGH" ∧ a.score = 40 :=
  (detectAnomalies_velocity [] 1000000000
    { submissions := burst 6 999400000, lastSubmissionTime := none,
      verificationRate := 0 }).2.2 (by decide)

/-! ## Time pattern check -/

/-- C9 (counterexample): a quest of the catalog with time limit 0 and two
adjacent submissions of it 10 minutes apart: the elapsed 10 minutes are not
below 0 + 5, yet `detectAnomalies` emits the IMPOSSIBLE_TIMING finding (with
minimum 65). -/
theorem detectAnomalies_timing_zero_limit :
    [({ id := 7, timeLimit := 0 } : Quest)].find? (fun q => q.id == (submissionAt 7 600000).questId)
      = some { id := 7, timeLimit := 0 } ∧
    ¬ elapsedBelow (submissionAt 7 0) (submissionAt 7 600000) (0 + 5) ∧
    detectAnomalies [{ id := 7, timeLimit := 0 }] 86400000
        { submissions := [submissionAt 7 0, submissionAt 7 600000],
          lastSubmissionTime := none, verificationRate := 0 } =
      [{ type := "IMPOSSIBLE_TIMING", severity := "HIGH",
         message := AnomalyMessage.timing 10 65, score := 35 }] := by
  refine ⟨rfl, ?_, ?_⟩
  · rintro ⟨a, b, ha, hb, h⟩
    simp only [submissionAt, Option.some.injEq] at ha hb
    subst ha hb
    norm_num at h
  · simp [detectAnomalies, recentSubmissions, timePatternCheck, dateGt, minutesBetween, numLt,
      orElse, submissionAt, List.enum, List.enumFrom]
    norm_num

/-- C9 (amended): for an adjacent pair `(prev, cur)` at index `i` whose current
quest is found in the catalog as `q`, with a time limit of a whole number `t` of
minutes: the IMPOSSIBLE_TIMING findings of `detectAnomalies` are those of the
pairs, index by index; the pair gets a finding (of severity HIGH and score 35,
at most one) exactly when the elapsed minutes are strictly less than `t + 5`
(that is, the elapsed milliseconds are less than `(t + 5) * 60000`) if `t` is
not 0, and strictly less than 65 if `t` is 0 (the default 60 then applies); a
pair 10 minutes apart for a quest with time limit 30 gets the finding. -/
theorem detectAnomalies_timing_known_quest (QUESTS : List Quest) (now : Int)
    (userData : UserData) (i : Nat) (prev cur : Submission) (q : Quest) (t : Int)
    (hi : 0 < i) (hprev : userData.submissions[i - 1]? = some prev)
    (hcur : userData.submissions[i]? = some cur)
    (hq : QUESTS.find? (fun x => x.id == cur.questId) = some q)
    (ht : q.timeLimit = (t : ℚ)) :
    ofType "IMPOSSIBLE_TIMING" (detectAnomalies QUESTS now userData) =
      userData.submissions.enum.flatMap
        (fun p => timePatternCheck QUESTS userData.submissions p.2 p.1) ∧
    (i, cur) ∈ userData.submissions.enum ∧
    (t ≠ 0 →
      (timePatternCheck QUESTS userData.submissions cur i ≠ [] ↔
        elapsedBelow prev cur ((t : ℚ) + 5))) ∧
    (t ≠ 0 →
      (timePatternCheck QUESTS userData.submissions cur i ≠ [] ↔
        ∃ a b : Int, prev.timestamp.value = some a ∧ cur.timestamp.value = some b ∧
          b - a < (t + 5) * 60000)) ∧
    (t = 0 →
      (timePatternCheck QUESTS userData.submissions cur i ≠ [] ↔
        elapsedBelow prev cur 65)) ∧
    (∀ a ∈ timePatternCheck QUESTS userData.submissions cur i,
      a.type = "IMPOSSIBLE_TIMING" ∧ a.severity = "HIGH" ∧ a.score = 35) ∧
    (timePatternCheck QUESTS userData.submissions cur i).length ≤ 1 ∧
    (t = 30 →
      (∃ a b : Int, prev.timestamp.value = some a ∧ cur.timestamp.value = some b ∧
        b - a = 600000) →
      timePatternCheck QUESTS userData.submissions cur i ≠ []) := by
  have key := timePatternCheck_ne_nil_iff QUESTS userData.submissions prev cur i hi hprev
  rw [hq] at key
  simp only [Option.map_some', orElse, ht] at key
  have hne : t ≠ 0 → ¬ ((t : ℚ) = 0) := fun h h0 => h (by exact_mod_cast h0)
  refine ⟨ofType_timing_detectAnomalies QUESTS now userData,
    List.mk_mem_enum_iff_getElem?.2 hcur, fun h => ?_, fun h => ?_, fun h => ?_,
    timePatternCheck_mem QUESTS userData.submissions cur i,
    timePatternCheck_length_le QUESTS userData.submissions cur i, fun h hab => ?_⟩
  · rw [key, if_neg (hne h)]
  · rw [key, if_neg (hne h)]
    have hcast : ((t : ℚ) + 5) = (((t + 5 : Int)) : ℚ) := by push_cast; ring
    rw [hcast, elapsedBelow_whole]
  · rw [key, if_pos (by rw [h]; norm_num)]
    norm_num
  · rw [key, if_neg (hne (by omega))]
    obtain ⟨a, b, ha, hb, hd⟩ := hab
    refine ⟨a, b, ha, hb, ?_⟩
    rw [hd, h]
    norm_num

/-- C9 (amended), at a concrete input: the catalog holds quest 1 with time
limit 30, and the history holds two submissions of quest 1, 10 minutes apart. -/
theorem detectAnomalies_timing_known_quest_witness :
    timePatternCheck [{ id := 1, timeLimit := 30 }]
      [submissionAt 1 0, submissionAt 1 600000] (submissionAt 1 600000) 1 ≠ [] :=
  (detectAnomalies_timing_known_quest [{ id := 1, timeLimit := 30 }] 86400000
    { submissions := [submissionAt 1 0, submissionAt 1 600000],
      lastSubmissionTime := none, verificationRate := 0 }
    1 (submissionAt 1 0) (submissionAt 1 600000) { id := 1, timeLimit := 30 } 30
    (by decide) rfl rfl rfl (by norm_num)).2.2.2.2.2.2.2 rfl ⟨0, 600000, rfl, rfl, by decide⟩

/-- C10: for an adjacent pair `(prev, cur)` at index `i` whose current questId
matches no quest of the catalog, the time pattern check is evaluated with the
default time limit of 60 minutes: the IMPOSSIBLE_TIMING findings of
`detectAnomalies` are those of the pairs, index by index, and the pair gets a
finding (of severity HIGH and score 35, at most one) exactly when the elapsed
minutes are strictly less than 65. -/
theorem detectAnomalies_timing_unknown_quest (QUESTS : List Quest) (now : Int)
    (userData : UserData) (i : Nat) (prev cur : Submission)
    (hi : 0 < i) (hprev : userData.submissions[i - 1]? = some prev)
    (hcur : userData.submissions[i]? = some cur)
    (hq : ∀ q ∈ QUESTS, q.id ≠ cur.questId) :
    ofType "IMPOSSIBLE_TIMING" (detectAnomalies QUESTS now userData) =
      userData.submissions.enum.flatMap
        (fun p => timePatternCheck QUESTS userData.submissions p.2 p.1) ∧
    (i, cur) ∈ userData.submissions.enum ∧
    (timePatternCheck QUESTS userData.submissions cur i ≠ [] ↔ elapsedBelow prev cur 65) ∧
    (∀ a ∈ timePatternCheck QUESTS userData.submissions cur i,
      a.type = "IMPOSSIBLE_TIMING" ∧ a.severity = "HIGH" ∧ a.score = 35) ∧
    (timePatternCheck QUESTS userData.submissions cur i).length ≤ 1 := by
  have hfind : QUESTS.find? (fun x => x.id == cur.questId) = none := by
    rw [List.find?_eq_none]
    intro q hq'
    simpa using hq q hq'
  have key := timePatternCheck_ne_nil_iff QUESTS userData.submissions prev cur i hi hprev
  rw [hfind] at key
  simp only [Option.map_none', orElse] at key
  refine ⟨ofType_timing_detectAnomalies QUESTS now userData,
    List.mk_mem_enum_iff_getElem?.2 hcur, ?_,
    timePatternCheck_mem QUESTS userData.submissions cur i,
    timePatternCheck_length_le QUESTS userData.submissions cur i⟩
  rw [key]
  norm_num

/-- C10, at a concrete input: the catalog holds only quest 1, and the history
holds two submissions of quest 9, 64 minutes apart. -/
theorem detectAnomalies_timing_unknown_quest_witness :
    timePatternCheck [{ id := 1, timeLimit := 30 }]
        [submissionAt 9 0, submissionAt 9 3840000] (submissionAt 9 3840000) 1 ≠ [] ↔
      elapsedBelow (submissionAt 9 0) (submissionAt 9 3840000) 65 :=
  (detectAnomalies_timing_unknown_quest [{ id := 1, timeLimit := 30 }] 86400000
    { submissions := [submissionAt 9 0, submissionAt 9 3840000],
      lastSubmissionTime := none, verificationRate := 0 }
    1 (submissionAt 9 0) (submissionAt 9 3840000)
    (by decide) rfl rfl (by decide)).2.2.1

/-! ## Perfect record check -/

/-- C11: `detectAnomalies` returns exactly one PERFECT_RECORD finding, of
severity LOW and score 10, when the history has more than 20 submissions and
`verificationRate` equals exactly 1, and no PERFECT_RECORD finding otherwise; in
particular none with exactly 20 submissions and none with a rate below 1. -/
theorem detectAnomalies_perfectRecord (QUESTS : List Quest) (now : Int) (userData : UserData) :
    (20 < userData.submissions.length ∧ userData.verificationRate = 1 →
      ofType "PERFECT_RECORD" (detectAnomalies QUESTS now userData) =
        [{ type := "PERFECT_RECORD", severity := "LOW",
           message := AnomalyMessage.perfect, score := 10 }]) ∧
    (¬ (20 < userData.submissions.length ∧ userData.verificationRate = 1) →
      ofType "PERFECT_RECORD" (detectAnomalies QUESTS now userData) = []) ∧
    (userData.submissions.length = 20 →
      ofType "PERFECT_RECORD" (detectAnomalies QUESTS now userData) = []) ∧
    (userData.verificationRate < 1 →
      ofType "PERFECT_RECORD" (detectAnomalies QUESTS now userData) = []) := by
  rw [ofType_perfect_detectAnomalies]
  unfold perfectFindings
  refine ⟨fun h => ?_, fun h => ?_, fun h => ?_, fun h => ?_⟩
  · rw [if_pos (by simpa using h)]
  · rw [if_neg (by simpa using h)]
  · rw [if_neg]
    rintro ⟨h1, -⟩
    omega
  · rw [if_neg]
    rintro ⟨-, h2⟩
    rw [h2] at h
    exact lt_irrefl _ h

/-- C11, at a concrete input: 21 submissions with verification rate 1 give the
PERFECT_RECORD finding. -/
theorem detectAnomalies_perfectRecord_witness :
    ofType "PERFECT_RECORD" (detectAnomalies [] 1000000000
        { submissions := burst 21 0, lastSubmissionTime := none, verificationRate := 1 }) =
      [{ type := "PERFECT_RECORD", severity := "LOW",
         message := AnomalyMessage.perfect, score := 10 }] :=
  (detectAnomalies_perfectRecord [] 1000000000
    { submissions := burst 21 0, lastSubmissionTime := none, verificationRate := 1 }).1
    ⟨by decide, rfl⟩

/-! ## Number of timing findings -/

/-- C15: for a history of N submissions `detectAnomalies` returns at most N - 1
IMPOSSIBLE_TIMING findings, none when N is 0 or 1; they are the findings of the
indices in order, each index contributes at most one, and index 0 (which has
no previous submission) contributes none. -/
theorem detectAnomalies_timing_count (QUESTS : List Quest) (now : Int) (userData : UserData) :
    (ofType "IMPOSSIBLE_TIMING" (detectAnomalies QUESTS now userData)).length ≤
      userData.submissions.length - 1 ∧
    (userData.submissions.length ≤ 1 →
      ofType "IMPOSSIBLE_TIMING" (detectAnomalies QUESTS now userData) = []) ∧
    ofType "IMPOSSIBLE_TIMING" (detectAnomalies QUESTS now userData) =
      userData.submissions.enum.flatMap
        (fun p => timePatternCheck QUESTS userData.submissions p.2 p.1) ∧
    (∀ (submission : Submission) (idx : Nat),
      (timePatternCheck QUESTS userData.submissions submission idx).length ≤ 1) ∧
    (∀ submission : Submission,
      timePatternCheck QUESTS userData.submissions submission 0 = []) := by
  have hlen := timingFindings_length_le QUESTS userData
  refine ⟨?_, fun h => ?_, ofType_timing_detectAnomalies QUESTS now userData,
    fun submission idx => timePatternCheck_length_le QUESTS userData.submissions submission idx,
    fun submission => timePatternCheck_zero QUESTS userData.submissions submission⟩
  · rw [ofType_timing_detectAnomalies]
    exact hlen
  · rw [ofType_timing_detectAnomalies]
    apply List.eq_nil_of_length_eq_zero
    omega

/-! ## Unparsable timestamps -/

/-- C16 (counterexample): a history whose first submission has a timestamp that
does not parse: `checkRateLimits` returns the verdict `allowed = true` with no
violations and `detectAnomalies` returns the empty list of findings; no error is
raised. -/
theorem invalid_timestamp_evaluated :
    garbled.timestamp.value = none ∧
    checkRateLimits 1000000000
        { submissions := [garbled, submissionAt 1 999400000], lastSubmissionTime := none,
          verificationRate := 0 } =
      { allowed := true, violations := [] } ∧
    detectAnomalies [] 1000000000
        { submissions := [garbled, submissionAt 1 999400000], lastSubmissionTime := none,
          verificationRate := 0 } = [] := by
  refine ⟨rfl, by decide, ?_⟩
  simp [detectAnomalies, recentSubmissions, timePatternCheck, dateGt, minutesBetween, numLt,
    garbled, submissionAt, List.enum, List.enumFrom]

/-- C16 (amended): a submission whose timestamp does not parse raises no error;
both functions return an ordinary result in which that submission is counted in
no time window: `checkRateLimits` returns what it returns on the history without
the unparsable submissions, the VELOCITY_SPIKE findings of `detectAnomalies` are
those of the history without them, and an adjacent pair with an unparsable
member gets no IMPOSSIBLE_TIMING finding. -/
theorem invalid_timestamp_ignored (QUESTS : List Quest) (now : Int) (userData : UserData) :
    checkRateLimits now userData = checkRateLimits now (withoutInvalid userData) ∧
    ofType "VELOCITY_SPIKE" (detectAnomalies QUESTS now userData) =
      ofType "VELOCITY_SPIKE" (detectAnomalies QUESTS now (withoutInvalid userData)) ∧
    (∀ (i : Nat) (prev cur : Submission), 0 < i →
      userData.submissions[i - 1]? = some prev → userData.submissions[i]? = some cur →
      prev.timestamp.value = none ∨ cur.timestamp.value = none →
      timePatternCheck QUESTS userData.submissions cur i = []) := by
  refine ⟨?_, ?_, fun i prev cur hi hprev _ h =>
    timePatternCheck_invalid QUESTS userData.submissions prev cur i hi hprev h⟩
  · unfold checkRateLimits
    simp only [filter_dateGt_length, withoutInvalid, countAfter_filter_valid, cooldownCheck]
  · rw [ofType_velocity_detectAnomalies, ofType_velocity_detectAnomalies]
    unfold velocityFindings
    simp only [recentSubmissions_length, withoutInvalid, countAfter_filter_valid]

/-! ## Status from the findings -/

/-- C18: with v, k and p the numbers of VELOCITY_SPIKE, IMPOSSIBLE_TIMING and
PERFECT_RECORD findings of `detectAnomalies` (v and p are 0 or 1), the status of
the aggregated score is SAFE exactly when v = 0 and k = 0, HIGH_RISK exactly
when v + k >= 2 or (v = 1 and p = 1), and CAUTION in every other case. -/
theorem status_of_findings (QUESTS : List Quest) (now : Int) (userData : UserData) :
    (ofType "VELOCITY_SPIKE" (detectAnomalies QUESTS now userData)).length ≤ 1 ∧
    (ofType "PERFECT_RECORD" (detectAnomalies QUESTS now userData)).length ≤ 1 ∧
    ((getAnomalyStatus (calculateAnomalyScore (detectAnomalies QUESTS now userData))).level
        = "SAFE" ↔
      (ofType "VELOCITY_SPIKE" (detectAnomalies QUESTS now userData)).length = 0 ∧
      (ofType "IMPOSSIBLE_TIMING" (detectAnomalies QUESTS now userData)).length = 0) ∧
    ((getAnomalyStatus (calculateAnomalyScore (detectAnomalies QUESTS now userData))).level
        = "HIGH_RISK" ↔
      2 ≤ (ofType "VELOCITY_SPIKE" (detectAnomalies QUESTS now userData)).length +
          (ofType "IMPOSSIBLE_TIMING" (detectAnomalies QUESTS now userData)).length ∨
      ((ofType "VELOCITY_SPIKE" (detectAnomalies QUESTS now userData)).length = 1 ∧
       (ofType "PERFECT_RECORD" (detectAnomalies QUESTS now userData)).length = 1)) ∧
    ((getAnomalyStatus (calculateAnomalyScore (detectAnomalies QUESTS now userData))).level
        = "CAUTION" ↔
      ¬ ((ofType "VELOCITY_SPIKE" (detectAnomalies QUESTS now userData)).length = 0 ∧
         (ofType "IMPOSSIBLE_TIMING" (detectAnomalies QUESTS now userData)).length = 0) ∧
      ¬ (2 ≤ (ofType "VELOCITY_SPIKE" (detectAnomalies QUESTS now userData)).length +
            (ofType "IMPOSSIBLE_TIMING" (detectAnomalies QUESTS now userData)).length ∨
         ((ofType "VELOCITY_SPIKE" (detectAnomalies QUESTS now userData)).length = 1 ∧
          (ofType "PERFECT_RECORD" (detectAnomalies QUESTS now userData)).length = 1))) := by
  rw [ofType_velocity_detectAnomalies, ofType_timing_detectAnomalies,
    ofType_perfect_detectAnomalies, calculateAnomalyScore_eq_min, scoreSum_detectAnomalies]
  have hv := velocityFindings_length_le now userData
  have hp := perfectFindings_length_le userData
  obtain ⟨h1, h2, h3⟩ := getAnomalyStatus_level_cases
    (min 100 (40 * ((velocityFindings now userData).length : Int) +
      35 * ((timingFindings QUESTS userData).length : Int) +
      10 * ((perfectFindings userData).length : Int)))
  rw [h1, h2, h3]
  generalize (velocityFindings now userData).length = v at hv ⊢
  generalize (timingFindings QUESTS userData).length = k
  generalize (perfectFindings userData).length = q at hp ⊢
  refine ⟨hv, hp, ?_, ?_, ?_⟩
  · rw [min_lt_iff]; omega
  · rw [le_min_iff]; omega
  · rw [le_min_iff, min_lt_iff]; omega

/-! ## Score of the velocity finding -/

/-- C19: every VELOCITY_SPIKE finding that `detectAnomalies` returns has score
exactly 40: it is emitted only when the count of the trailing hour exceeds 5, so
that `count * 8` is at least 48 and the minimum with 40 is 40. -/
theorem velocity_score_is_forty (QUESTS : List Quest) (now : Int) (userData : UserData)
    (a : Anomaly) (ha : a ∈ detectAnomalies QUESTS now userData)
    (ht : a.type = "VELOCITY_SPIKE") :
    a.score = 40 ∧ 5 < countAfter (now - 3600000) userData.submissions ∧
    48 ≤ countAfter (now - 3600000) userData.submissions * 8 := by
  have hmem : a ∈ ofType "VELOCITY_SPIKE" (detectAnomalies QUESTS now userData) := by
    unfold ofType
    rw [List.mem_filter]
    exact ⟨ha, by simpa using ht⟩
  rw [ofType_velocity_detectAnomalies] at hmem
  obtain ⟨h1, h2⟩ := velocityFindings_score now userData a hmem
  exact ⟨h1, h2, by omega⟩

/-- C19, at a concrete input: with 7 submissions 10 minutes before `now` the
VELOCITY_SPIKE finding has score 40 (and not 56). -/
theorem velocity_score_is_forty_witness :
    ({ type := "VELOCITY_SPIKE", severity := "HIGH", message := AnomalyMessage.velocity 7,
       score := 40 } : Anomaly).score = 40 ∧
    5 < countAfter (1000000000 - 3600000) (burst 7 999400000) ∧
    48 ≤ countAfter (1000000000 - 3600000) (burst 7 999400000) * 8 :=
  velocity_score_is_forty [] 1000000000
    { submissions := burst 7 999400000, lastSubmissionTime := none, verificationRate := 0 }
    { type := "VELOCITY_SPIKE", severity := "HIGH", message := AnomalyMessage.velocity 7,
      score := 40 }
    (by
      rw [detectAnomalies_eq]
      refine List.mem_append_left _ (List.mem_append_left _ ?_)
      rw [velocityFindings_of_count _ _ (by decide)]
      simp
      decide)
    rfl

/-! ## Velocity finding and hour limit -/

/-- C20: when `detectAnomalies` returns a VELOCITY_SPIKE finding for a history
at the instant `now`, `checkRateLimits` at the same instant returns
`allowed = false` and its violations hold the hour limit message. -/
theorem velocity_implies_hourLimit (QUESTS : List Quest) (now : Int) (userData : UserData)
    (h : ∃ a ∈ detectAnomalies QUESTS now userData, a.type = "VELOCITY_SPIKE") :
    (checkRateLimits now userData).allowed = false ∧
    hourLimitMessage ∈ (checkRateLimits now userData).violations := by
  obtain ⟨a, ha, ht⟩ := h
  have hmem : a ∈ ofType "VELOCITY_SPIKE" (detectAnomalies QUESTS now userData) := by
    unfold ofType
    rw [List.mem_filter]
    exact ⟨ha, by simpa using ht⟩
  rw [ofType_velocity_detectAnomalies] at hmem
  have hcount := (velocityFindings_score now userData a hmem).2
  have hv : hourLimitMessage ∈ (checkRateLimits now userData).violations := by
    rw [mem_violations_iff]
    exact Or.inl ⟨by omega, rfl⟩
  refine ⟨?_, hv⟩
  cases hall : (checkRateLimits now userData).allowed with
  | false => rfl
  | true =>
    rw [(checkRateLimits_allowed now userData).1 hall] at hv
    simp at hv

/-- C20, at a concrete input: 6 submissions 10 minutes before `now`. -/
theorem velocity_implies_hourLimit_witness :
    (checkRateLimits 1000000000
      { submissions := burst 6 999400000, lastSubmissionTime := none,
        verificationRate := 0 }).allowed = false ∧
    hourLimitMessage ∈ (checkRateLimits 1000000000
      { submissions := burst 6 999400000, lastSubmissionTime := none,
        verificationRate := 0 }).violations :=
  velocity_implies_hourLimit [] 1000000000
    { submissions := burst 6 999400000, lastSubmissionTime := none, verificationRate := 0 }
    ⟨{ type := "VELOCITY_SPIKE", severity := "HIGH", message := AnomalyMessage.velocity 6,
       score := 40 },
      by
        rw [detectAnomalies_eq]
        refine List.mem_append_left _ (List.mem_append_left _ ?_)
        rw [velocityFindings_of_count _ _ (by decide)]
        simp
        decide,
      rfl⟩

/-! ## Commitment hash -/

/-- C12: the digest of `createSubmissionHash` depends on the four fields
`questId`, `timestamp`, `deviceId` and `description` only: two submissions that
agree on them have the same digest, whatever their other fields hold. -/
theorem createSubmissionHash_four_fields (s₁ s₂ : Submission)
    (hq : s₁.questId = s₂.questId) (ht : s₁.timestamp.text = s₂.timestamp.text)
    (hd : s₁.deviceId = s₂.deviceId) (hx : s₁.description = s₂.description) :
    createSubmissionHash s₁ = createSubmissionHash s₂ := by
  unfold createSubmissionHash stringifySubmission
  rw [hq, ht, hd, hx]

/-- C12, at a concrete input: a stored submission and the same submission with
its `commitmentHash` filled in have the same digest. -/
theorem createSubmissionHash_four_fields_witness :
    createSubmissionHash walk =
      createSubmissionHash
        { walk with
          commitmentHash := "b9ce4b49f8ab4edcd8510e6f05869f548bf5f1b357af417ab69299795b3da740" } :=
  createSubmissionHash_four_fields walk
    { walk with
      commitmentHash := "b9ce4b49f8ab4edcd8510e6f05869f548bf5f1b357af417ab69299795b3da740" }
    rfl rfl rfl rfl

/-- C13: the digest of `createSubmissionHash` is a string of exactly 64
characters, each a lowercase hexadecimal digit: the SHA-256 output has 32
bytes, and the string is the two hexadecimal digits of each byte (high digit
first, so zero padded), in the order of the bytes. -/
theorem createSubmissionHash_hex (submission : Submission) :
    (createSubmissionHash submission).length = 64 ∧
    (∀ c ∈ (createSubmissionHash submission).data, c ∈ "0123456789abcdef".data) ∧
    (SHA256.digest (encode (stringifySubmission submission))).length = 32 ∧
    (createSubmissionHash submission).data =
      (SHA256.digest (encode (stringifySubmission submission))).flatMap
        (fun b => [Nat.digitChar (b.val / 16), Nat.digitChar (b.val % 16)]) := by
  have hdata := createSubmissionHash_data submission
  refine ⟨?_, ?_, digest_length _, hdata⟩
  · show (createSubmissionHash submission).data.length = 64
    rw [hdata, flatMap_hexPair_length, digest_length]
  · intro c hc
    rw [hdata, List.mem_flatMap] at hc
    obtain ⟨b, -, hb⟩ := hc
    exact hexPair_hex b c hb

/-! ## Device fingerprint -/

/-- C14 (counterexample): for a snapshot whose user agent holds a character
above U+00FF, `btoa` fails and `generateDeviceFingerprint` returns no
identifier. -/
theorem generateDeviceFingerprint_fails :
    generateDeviceFingerprint { linuxDesktop with userAgent := "Mozilla/5.0 (Ω-Browser)" } =
      Except.error "InvalidCharacterError" ∧
    ¬ ∃ id, generateDeviceFingerprint
        { linuxDesktop with userAgent := "Mozilla/5.0 (Ω-Browser)" } = Except.ok id := by
  have h : generateDeviceFingerprint
      { linuxDesktop with userAgent := "Mozilla/5.0 (Ω-Browser)" } =
      Except.error "InvalidCharacterError" := by
    rw [generateDeviceFingerprint_eq, if_neg (by decide)]
  refine ⟨h, ?_⟩
  rintro ⟨id, hid⟩
  rw [h] at hid
  exact absurd hid (by simp)

/-- C14 (amended): for a snapshot whose user agent, language, timezone and
platform hold only characters up to U+00FF, `generateDeviceFingerprint` returns
an identifier of exactly 16 characters; for any other snapshot it fails with the
`InvalidCharacterError` of `btoa`; equal snapshots give equal results. -/
theorem generateDeviceFingerprint_length (env : Environment) :
    (environmentLatin1 env = true →
      ∃ id, generateDeviceFingerprint env = Except.ok id ∧ id.length = 16) ∧
    (environmentLatin1 env = false →
      generateDeviceFingerprint env = Except.error "InvalidCharacterError") ∧
    (∀ env₂ : Environment, env₂ = env →
      generateDeviceFingerprint env₂ = generateDeviceFingerprint env) := by
  refine ⟨fun h => ?_, fun h => ?_, fun env₂ h => by rw [h]⟩
  · refine ⟨"eyJ1c2VyQWdlbnQi", ?_, by decide⟩
    rw [generateDeviceFingerprint_eq, h]
    rfl
  · rw [generateDeviceFingerprint_eq, h]
    rfl

/-- C14 (amended), at a concrete input: a desktop browser on Linux. -/
theorem generateDeviceFingerprint_length_witness :
    ∃ id, generateDeviceFingerprint linuxDesktop = Except.ok id ∧ id.length = 16 :=
  (generateDeviceFingerprint_length linuxDesktop).1 (by decide)

/-- C17 (counterexample): two snapshots that differ in the platform only, one
of them with characters above U+00FF: the first gets the identifier, the second
gets none, so the two results differ. -/
theorem generateDeviceFingerprint_differs :
    generateDeviceFingerprint linuxDesktop = Except.ok "eyJ1c2VyQWdlbnQi" ∧
    generateDeviceFingerprint { linuxDesktop with platform := "Линукс" } =
      Except.error "InvalidCharacterError" ∧
    generateDeviceFingerprint linuxDesktop ≠
      generateDeviceFingerprint { linuxDesktop with platform := "Линукс" } := by
  have h1 : generateDeviceFingerprint linuxDesktop = Except.ok "eyJ1c2VyQWdlbnQi" := by
    rw [generateDeviceFingerprint_eq, if_pos (by decide)]
  have h2 : generateDeviceFingerprint { linuxDesktop with platform := "Линукс" } =
      Except.error "InvalidCharacterError" := by
    rw [generateDeviceFingerprint_eq, if_neg (by decide)]
  refine ⟨h1, h2, ?_⟩
  rw [h1, h2]
  simp

/-- C17 (amended): for every snapshot on which `btoa` does not fail (the user
agent, language, timezone and platform hold only characters up to U+00FF),
`generateDeviceFingerprint` returns "eyJ1c2VyQWdlbnQi": the serialized record
starts with the 12 characters of the opening brace and the quoted key
`userAgent`, and the 16 characters kept are the base64 encoding of these 12
characters. -/
theorem generateDeviceFingerprint_constant (env : Environment)
    (h : environmentLatin1 env = true) :
    generateDeviceFingerprint env = Except.ok "eyJ1c2VyQWdlbnQi" ∧
    (stringifyFingerprint env).data.take 12 = keyHead.data ∧
    String.mk (base64 (keyHead.data.map (fun c => c.toNat))) = "eyJ1c2VyQWdlbnQi" ∧
    (∀ env₂ : Environment, environmentLatin1 env₂ = true →
      generateDeviceFingerprint env₂ = generateDeviceFingerprint env) := by
  have hconst : ∀ e : Environment, environmentLatin1 e = true →
      generateDeviceFingerprint e = Except.ok "eyJ1c2VyQWdlbnQi" := by
    intro e he
    rw [generateDeviceFingerprint_eq, he]
    rfl
  refine ⟨hconst env h, ?_, by decide, fun env₂ h₂ => by rw [hconst env h, hconst env₂ h₂]⟩
  rw [stringifyFingerprint_data env, keyHead_data]
  simp

/-- C17 (amended), at a concrete input: a desktop browser on Linux and a phone
get the same identifier. -/
theorem generateDeviceFingerprint_constant_witness :
    generateDeviceFingerprint phone = generateDeviceFingerprint linuxDesktop :=
  (generateDeviceFingerprint_constant linuxDesktop (by decide)).2.2.2 phone (by decide)

end Carboncred
